import Mathlib

/-!
# Stash operator: recovery reconciliation, recovery run and volume merging

A shallow embedding of

* `pkg/util/kubernetes.go` (`MergeLocalVolume`, `EnsureVolumeDeleted`, the upserts of the
  scratch and pod-info volumes, `NewSidecarContainer`, `NewInitContainer`, `NewRecoveryJob`,
  `NewCheckJob`, `RecoveryEqual`, `FindRestic`),
* `pkg/controller/recoveries.go` (the handlers of `initRecoveryWatcher`, `runRecoveryInjector`,
  `runRecoveryJob`),
* `pkg/recovery/recovery.go` (`Run`, `RecoverOrErr`).

Calls to the cluster API, to the data-transfer tool and to the event recorder are
modelled as entries of an effect trace; what those collaborators answer is read
from an explicit record of answers, so that every function below is a pure,
executable function of its inputs.
-/

namespace Stash

/-! ## Kubernetes objects (the fields the sources read or write) -/

/-- Go `error` value: the API status reason (empty for a plain error) and the text
returned by `Error()`. -/
structure Err where
  reason : String
  message : String
  deriving DecidableEq, Repr

/-- Status reason carried by an already-exists API error. -/
def StatusReasonAlreadyExists : String := "AlreadyExists"

/-- The check `kerr.IsAlreadyExists(err)`. -/
def IsAlreadyExists (err : Err) : Bool := err.reason == StatusReasonAlreadyExists

structure ObjectFieldSelector where
  FieldPath : String
  deriving DecidableEq, Repr

structure DownwardAPIVolumeFile where
  Path : String
  FieldRef : Option ObjectFieldSelector
  deriving DecidableEq, Repr

/-- The struct `core.VolumeSource`: optional members, those the sources build plus the two a
user most often declares. `EmptyDir` holds `some ()` for `&core.EmptyDirVolumeSource{}`. -/
structure VolumeSource where
  HostPath : Option String
  EmptyDir : Option Unit
  DownwardAPI : Option (List DownwardAPIVolumeFile)
  PersistentVolumeClaim : Option String
  deriving DecidableEq, Repr

structure Volume where
  Name : String
  VolumeSource : VolumeSource
  deriving DecidableEq, Repr

structure VolumeMount where
  Name : String
  MountPath : String
  SubPath : String
  ReadOnly : Bool
  deriving DecidableEq, Repr

structure EnvVar where
  Name : String
  Value : String
  ValueFrom : Option ObjectFieldSelector
  deriving DecidableEq, Repr

structure Container where
  Name : String
  Image : String
  Args : List String
  Env : List EnvVar
  Resources : String
  VolumeMounts : List VolumeMount
  deriving DecidableEq, Repr

structure OwnerReference where
  APIVersion : String
  Kind : String
  Name : String
  UID : String
  deriving DecidableEq, Repr

structure ObjectMeta where
  Name : String
  Namespace : String
  UID : String
  Labels : List (String × String)
  Annotations : Option (List (String × String))
  OwnerReferences : List OwnerReference
  deriving DecidableEq, Repr

structure ObjectReference where
  Kind : String
  Namespace : String
  Name : String
  UID : String
  deriving DecidableEq, Repr

inductive RestartPolicy where
  | Always
  | OnFailure
  | Never
  deriving DecidableEq, Repr

structure PodSpec where
  Containers : List Container
  ImagePullSecrets : List String
  RestartPolicy : RestartPolicy
  Volumes : List Volume
  NodeName : String
  ServiceAccountName : String
  deriving DecidableEq, Repr

/-- The batch job `batch.Job`; `Spec` is the pod spec at `job.Spec.Template.Spec`. -/
structure Job where
  ObjectMeta : ObjectMeta
  Spec : PodSpec
  deriving DecidableEq, Repr

structure Secret where
  Name : String
  Data : List (String × String)
  deriving DecidableEq, Repr

/-! ## Stash API objects -/

/-- The local backend `api.LocalSpec`. -/
structure LocalSpec where
  VolumeSource : VolumeSource
  MountPath : String
  SubPath : String
  deriving DecidableEq, Repr

/-- Modelled from the spec: `LocalSpec.ToVolumeAndMount` lives in the API package, which is not
among the sources. It yields the volume/mount pair derived from the backend's local path, both
carrying the name it is given. -/
def LocalSpec.ToVolumeAndMount (l : LocalSpec) (volName : String) : Volume × VolumeMount :=
  ({ Name := volName, VolumeSource := l.VolumeSource },
   { Name := volName, MountPath := l.MountPath, SubPath := l.SubPath, ReadOnly := false })

/-- Modelled from the spec: `api.Backend` is declared in the API package. It holds the name of
the credentials secret, the local variant and the descriptor of a remote object store. The
sources only ever test `Local` for nil. -/
structure Backend where
  StorageSecretName : String
  Local : Option LocalSpec
  Remote : Option String
  deriving DecidableEq, Repr

structure LocalTypedReference where
  Kind : String
  Name : String
  deriving DecidableEq, Repr

/-- The type `api.RecoveryPhase` is a string type. -/
abbrev RecoveryPhase := String

/-- Modelled from the spec: the phase names of the recovery state machine; the constants are
declared in the API package. The unset phase is the empty string. -/
def RecoveryPending : RecoveryPhase := "Pending"

/-- Modelled from the spec: phase name, see `RecoveryPending`. -/
def RecoveryRunning : RecoveryPhase := "Running"

/-- Modelled from the spec: phase name, see `RecoveryPending`. -/
def RecoverySucceeded : RecoveryPhase := "Succeeded"

/-- Modelled from the spec: phase name, see `RecoveryPending`. -/
def RecoveryFailed : RecoveryPhase := "Failed"

structure RestoreStats where
  Path : String
  Phase : RecoveryPhase
  Duration : Nat
  deriving DecidableEq, Repr

/-- A Go slice: `none` is the nil slice, `some l` a non-nil slice holding the elements `l`
(`some []` is the empty, non-nil slice). -/
abbrev Slice (α : Type) : Type := Option (List α)

/-- The elements of a slice, as `range` visits them and as `append` copies them: a nil slice
has none. -/
def Slice.elems {α : Type} : Slice α → List α
  | none => []
  | some l => l

/-- The struct `api.RecoverySpec`. Its three slices `Paths`, `RecoveredVolumes` and
`ImagePullSecrets` are kept as slices, nil or not, since `reflect.DeepEqual` tells a nil slice
from an empty one. -/
structure RecoverySpec where
  Backend : Backend
  PathsSlice : Slice String
  Workload : LocalTypedReference
  PodOrdinal : String
  NodeName : String
  RecoveredVolumesSlice : Slice LocalSpec
  ImagePullSecretsSlice : Slice String
  deriving DecidableEq, Repr

/-- The elements of `Spec.Paths`. -/
def RecoverySpec.Paths (s : RecoverySpec) : List String := s.PathsSlice.elems

/-- The elements of `Spec.RecoveredVolumes`. -/
def RecoverySpec.RecoveredVolumes (s : RecoverySpec) : List LocalSpec :=
  s.RecoveredVolumesSlice.elems

/-- The elements of `Spec.ImagePullSecrets`. -/
def RecoverySpec.ImagePullSecrets (s : RecoverySpec) : List String :=
  s.ImagePullSecretsSlice.elems

structure RecoveryStatus where
  Phase : RecoveryPhase
  Stats : List RestoreStats
  deriving DecidableEq, Repr

structure Recovery where
  ObjectMeta : ObjectMeta
  Spec : RecoverySpec
  Status : RecoveryStatus
  deriving DecidableEq, Repr

structure ResticSpec where
  Selector : List (String × String)
  Backend : Backend
  VolumeMounts : List VolumeMount
  Resources : String
  ImagePullSecrets : List String
  deriving DecidableEq, Repr

structure Restic where
  ObjectMeta : ObjectMeta
  Spec : ResticSpec
  deriving DecidableEq, Repr

/-- Modelled from the spec: the kind name of a Recovery object (`api.ResourceKindRecovery`). -/
def ResourceKindRecovery : String := "Recovery"

/-- Modelled from the spec: `Recovery.ObjectReference` is a method of the API package; it names
the Recovery an event is attached to by kind, namespace, name and UID. -/
def Recovery.ObjectReference (r : Recovery) : ObjectReference :=
  { Kind := ResourceKindRecovery, Namespace := r.ObjectMeta.Namespace,
    Name := r.ObjectMeta.Name, UID := r.ObjectMeta.UID }

/-- The image descriptor `docker.Docker`. -/
structure Docker where
  Registry : String
  Image : String
  Tag : String
  deriving DecidableEq, Repr

/-! ## `pkg/util/kubernetes.go` -/

def StashContainer : String := "stash"
def LocalVolumeName : String := "stash-local"
def ScratchDirVolumeName : String := "stash-scratchdir"
def PodinfoVolumeName : String := "stash-podinfo"
def RecoveryJobPrefix : String := "stash-recovery-"
def AnnotationRecovery : String := "recovery"
def AnnotationOperation : String := "operation"
def OperationRecovery : String := "recovery"
def AppLabelStash : String := "stash"

/-- The package variables `AnalyticsClientID`, `EnableAnalytics` and `LoggerOptions` (as the
flags `LoggerOptions.ToFlags()` expands to), together with the constants and the helper the
package imports from elsewhere: `analytics.Key`, `api.SchemeGroupVersion.String()`,
`docker.ImageStash` and `Docker.ToContainerImage`, the annotation key `api.VersionTag`, and
`Namespace`, the operator's own namespace as `meta.Namespace()` returns it. -/
structure Globals where
  AnalyticsClientID : String
  EnableAnalytics : Bool
  LoggerFlags : List String
  AnalyticsKey : String
  SchemeGroupVersion : String
  ImageStash : String
  ToContainerImage : Docker → String
  VersionTag : String
  Namespace : String

/-- Rendering `fmt.Sprintf("%v", b)` of a boolean. -/
def fmtBool (b : Bool) : String := if b then "true" else "false"

/-- The flags `LoggerOptions.ToFlags()` of the logging library returns while no logger option
is configured, that is for the zero value of the options: the two switches it renders
always. The flags it returns are therefore never empty. -/
def unconfiguredLoggerFlags : List String :=
  ["--logtostderr=false", "--alsologtostderr=false"]

/-- The library function `core_util.UpsertVolume` for one volume: the first volume of the same
name is overwritten in place, and without one the volume is appended. -/
def UpsertVolume : List Volume → Volume → List Volume
  | [], nv => [nv]
  | vol :: rest, nv => if vol.Name = nv.Name then nv :: rest else vol :: UpsertVolume rest nv

/-- The scan `for i, vol := range volumes { if vol.Name == name { pos = i; break } }`:
the index of the first volume of that name, `none` standing for `-1`. -/
def firstNamed (name : String) : List Volume → Option Nat
  | [] => none
  | vol :: rest => if vol.Name = name then some 0 else (firstNamed name rest).map (· + 1)

/-- The function `MergeLocalVolume`. `old` may be nil; `new` is dereferenced unguarded, so it is
a policy, not a pointer that may be nil. `append(volumes[:p], volumes[p+1:]...)` is the list
without index `p`. -/
def MergeLocalVolume (volumes : List Volume) (old : Option Restic) (new : Restic) : List Volume :=
  let oldPos : Option Nat :=
    match old with
    | some o => if o.Spec.Backend.Local.isSome then firstNamed LocalVolumeName volumes else none
    | none => none
  match new.Spec.Backend.Local with
  | some l =>
    let vol := (l.ToVolumeAndMount LocalVolumeName).1
    match oldPos with
    | some p => volumes.set p vol
    | none => UpsertVolume volumes vol
  | none =>
    match oldPos with
    | some p => volumes.take p ++ volumes.drop (p + 1)
    | none => volumes

/-- The loop of `NewRecoveryJob` over `recovery.Spec.RecoveredVolumes`, from index `i` on: each
recovered volume yields the pair `ToVolumeAndMount("vol-<i>")`. -/
def recoveredPairs : Nat → List LocalSpec → List (Volume × VolumeMount)
  | _, [] => []
  | i, recVol :: rest => recVol.ToVolumeAndMount ("vol-" ++ toString i) :: recoveredPairs (i + 1) rest

/-- The function `NewRecoveryJob`. -/
def NewRecoveryJob (g : Globals) (recovery : Recovery) (image : Docker) : Job :=
  let pairs := recoveredPairs 0 recovery.Spec.RecoveredVolumes
  let volumes := pairs.map (·.1)
  let volumeMounts := pairs.map (·.2)
  let container : Container :=
    { Name := StashContainer
      Image := g.ToContainerImage image
      Args := ["recover",
               "--recovery-name=" ++ recovery.ObjectMeta.Name,
               "--enable-analytics=" ++ fmtBool g.EnableAnalytics] ++ g.LoggerFlags
      Env := [{ Name := g.AnalyticsKey, Value := g.AnalyticsClientID, ValueFrom := none }]
      Resources := ""
      VolumeMounts := volumeMounts ++
        [{ Name := ScratchDirVolumeName, MountPath := "/tmp", SubPath := "", ReadOnly := false }] }
  let job : Job :=
    { ObjectMeta :=
        { Name := RecoveryJobPrefix ++ recovery.ObjectMeta.Name
          Namespace := recovery.ObjectMeta.Namespace
          UID := ""
          Labels := [("app", AppLabelStash),
                     (AnnotationRecovery, recovery.ObjectMeta.Name),
                     (AnnotationOperation, OperationRecovery)]
          Annotations := none
          OwnerReferences :=
            [{ APIVersion := g.SchemeGroupVersion, Kind := ResourceKindRecovery,
               Name := recovery.ObjectMeta.Name, UID := recovery.ObjectMeta.UID }] }
      Spec :=
        { Containers := [container]
          ImagePullSecrets := recovery.Spec.ImagePullSecrets
          RestartPolicy := RestartPolicy.OnFailure
          Volumes := volumes ++
            [{ Name := ScratchDirVolumeName,
               VolumeSource := { HostPath := none, EmptyDir := some (), DownwardAPI := none,
                                 PersistentVolumeClaim := none } }]
          NodeName := recovery.Spec.NodeName
          ServiceAccountName := "" } }
  match recovery.Spec.Backend.Local with
  | some l =>
    let vm := l.ToVolumeAndMount LocalVolumeName
    { job with
      Spec := { job.Spec with
        Containers := [{ container with VolumeMounts := container.VolumeMounts ++ [vm.2] }]
        Volumes := job.Spec.Volumes ++ [vm.1] } }
  | none => job

def CheckJobPrefix : String := "stash-check-"
def AnnotationRestic : String := "restic"
def OperationCheck : String := "check"

/-- Modelled from the spec: the kind name of a backup policy object
(`api.ResourceKindRestic`). -/
def ResourceKindRestic : String := "Restic"

/-- The function `PushgatewayURL`. -/
def PushgatewayURL (g : Globals) : String :=
  "http://stash-operator." ++ g.Namespace ++ ".svc:56789"

/-- The two mounts every sidecar starts with. -/
def sidecarBaseMounts : List VolumeMount :=
  [{ Name := ScratchDirVolumeName, MountPath := "/tmp", SubPath := "", ReadOnly := false },
   { Name := PodinfoVolumeName, MountPath := "/etc/stash", SubPath := "", ReadOnly := false }]

/-- The function `NewSidecarContainer`. `image` is passed by value: the tag taken from the
annotation replaces the tag of the callee's copy only. -/
def NewSidecarContainer (g : Globals) (r : Restic) (workload : LocalTypedReference)
    (image : Docker) : Container :=
  let image : Docker :=
    match r.ObjectMeta.Annotations with
    | some annotations =>
      match annotations.lookup g.VersionTag with
      | some v => { image with Tag := v }
      | none => image
    | none => image
  let sidecar : Container :=
    { Name := StashContainer
      Image := g.ToContainerImage image
      Args := ["backup",
               "--restic-name=" ++ r.ObjectMeta.Name,
               "--workload-kind=" ++ workload.Kind,
               "--workload-name=" ++ workload.Name,
               "--docker-registry=" ++ image.Registry,
               "--image-tag=" ++ image.Tag,
               "--run-via-cron=true",
               "--pushgateway-url=" ++ PushgatewayURL g,
               "--enable-analytics=" ++ fmtBool g.EnableAnalytics] ++ g.LoggerFlags
      Env := [{ Name := "NODE_NAME", Value := "",
                ValueFrom := some { FieldPath := "spec.nodeName" } },
              { Name := "POD_NAME", Value := "",
                ValueFrom := some { FieldPath := "metadata.name" } },
              { Name := g.AnalyticsKey, Value := g.AnalyticsClientID, ValueFrom := none }]
      Resources := r.Spec.Resources
      VolumeMounts := sidecarBaseMounts }
  let sidecar : Container :=
    r.Spec.VolumeMounts.foldl
      (fun sidecar srcVol =>
        { sidecar with
          VolumeMounts := sidecar.VolumeMounts ++
            [{ Name := srcVol.Name, MountPath := srcVol.MountPath, SubPath := srcVol.SubPath,
               ReadOnly := true }] })
      sidecar
  match r.Spec.Backend.Local with
  | some l =>
    { sidecar with
      VolumeMounts := sidecar.VolumeMounts ++ [(l.ToVolumeAndMount LocalVolumeName).2] }
  | none => sidecar

/-- The function `NewInitContainer`. -/
def NewInitContainer (g : Globals) (r : Restic) (workload : LocalTypedReference)
    (image : Docker) (enableRBAC : Bool) : Container :=
  let container := NewSidecarContainer g r workload image
  let container : Container :=
    { container with
      Args := ["backup",
               "--restic-name=" ++ r.ObjectMeta.Name,
               "--workload-kind=" ++ workload.Kind,
               "--workload-name=" ++ workload.Name,
               "--docker-registry=" ++ image.Registry,
               "--image-tag=" ++ image.Tag,
               "--pushgateway-url=" ++ PushgatewayURL g,
               "--enable-analytics=" ++ fmtBool g.EnableAnalytics] }
  let container : Container := { container with Args := container.Args ++ g.LoggerFlags }
  if enableRBAC then { container with Args := container.Args ++ ["--enable-rbac=true"] }
  else container

/-- The function `UpsertScratchVolume`. -/
def UpsertScratchVolume (volumes : List Volume) : List Volume :=
  UpsertVolume volumes
    { Name := ScratchDirVolumeName,
      VolumeSource := { HostPath := none, EmptyDir := some (), DownwardAPI := none,
                        PersistentVolumeClaim := none } }

/-- The function `UpsertDownwardVolume`. -/
def UpsertDownwardVolume (volumes : List Volume) : List Volume :=
  UpsertVolume volumes
    { Name := PodinfoVolumeName,
      VolumeSource :=
        { HostPath := none, EmptyDir := none,
          DownwardAPI := some [{ Path := "labels",
                                 FieldRef := some { FieldPath := "metadata.labels" } }],
          PersistentVolumeClaim := none } }

/-- The function `EnsureVolumeDeleted`: the loop returns at the first volume of that name, with
`append(volumes[:i], volumes[i+1:]...)`, and the list itself when the loop ends. -/
def EnsureVolumeDeleted (volumes : List Volume) (name : String) : List Volume :=
  match firstNamed name volumes with
  | some i => volumes.take i ++ volumes.drop (i + 1)
  | none => volumes

/-- The function `RecoveryEqual`: `reflect.DeepEqual` of the two spec pointers, each nil when
the Recovery is nil. A nil pointer is deeply equal to a nil pointer only; two non-nil pointers
are deeply equal when the specs they point to are, field by field, a nil slice being equal to a
nil slice only. -/
def RecoveryEqual (old new : Option Recovery) : Bool :=
  let oldSpec : Option RecoverySpec := old.map (·.Spec)
  let newSpec : Option RecoverySpec := new.map (·.Spec)
  decide (oldSpec = newSpec)

/-- The function `NewCheckJob`. -/
def NewCheckJob (g : Globals) (restic : Restic) (hostName smartPrefix : String)
    (image : Docker) : Job :=
  let container : Container :=
    { Name := StashContainer
      Image := g.ToContainerImage image
      Args := ["check",
               "--restic-name=" ++ restic.ObjectMeta.Name,
               "--host-name=" ++ hostName,
               "--smart-prefix=" ++ smartPrefix,
               "--enable-analytics=" ++ fmtBool g.EnableAnalytics] ++ g.LoggerFlags
      Env := [{ Name := g.AnalyticsKey, Value := g.AnalyticsClientID, ValueFrom := none }]
      Resources := ""
      VolumeMounts :=
        [{ Name := ScratchDirVolumeName, MountPath := "/tmp", SubPath := "", ReadOnly := false }] }
  let job : Job :=
    { ObjectMeta :=
        { Name := CheckJobPrefix ++ restic.ObjectMeta.Name
          Namespace := restic.ObjectMeta.Namespace
          UID := ""
          Labels := [("app", AppLabelStash),
                     (AnnotationRestic, restic.ObjectMeta.Name),
                     (AnnotationOperation, OperationCheck)]
          Annotations := none
          OwnerReferences :=
            [{ APIVersion := g.SchemeGroupVersion, Kind := ResourceKindRestic,
               Name := restic.ObjectMeta.Name, UID := restic.ObjectMeta.UID }] }
      Spec :=
        { Containers := [container]
          ImagePullSecrets := restic.Spec.ImagePullSecrets
          RestartPolicy := RestartPolicy.OnFailure
          Volumes :=
            [{ Name := ScratchDirVolumeName,
               VolumeSource := { HostPath := none, EmptyDir := some (), DownwardAPI := none,
                                 PersistentVolumeClaim := none } }]
          NodeName := ""
          ServiceAccountName := "" } }
  match restic.Spec.Backend.Local with
  | some l =>
    let vm := l.ToVolumeAndMount LocalVolumeName
    { job with
      Spec := { job.Spec with
        Containers := [{ container with VolumeMounts := container.VolumeMounts ++ [vm.2] }]
        Volumes := job.Spec.Volumes ++ [vm.1] } }
  | none => job

/-- Status reason carried by a not-found API error. -/
def StatusReasonNotFound : String := "NotFound"

/-- The check `kerr.IsNotFound(err)`. -/
def IsNotFound (err : Err) : Bool := err.reason == StatusReasonNotFound

/-- What `FindRestic` is answered: by the lister, `Restics ns` being the result of
`lister.Restics(ns).List(labels.Everything())`, and by the label library, where
`LabelSelectorAsSelector` turns the selector of a policy into a selector, or fails, and a
selector is the predicate `Matches` on label sets. -/
structure ResticLister where
  Restics : String → Except Err (List Restic)
  LabelSelectorAsSelector :
    List (String × String) → Except Err (List (String × String) → Bool)

/-- The first loop of `FindRestic`: `result` collects the policies whose selector matches the
labels of the workload; a selector that cannot be converted ends the function with its error. -/
def matchingRestics (lister : ResticLister) (obj : ObjectMeta) :
    List Restic → List Restic → Except Err (List Restic)
  | [], result => Except.ok result
  | restic :: rest, result =>
    match lister.LabelSelectorAsSelector restic.Spec.Selector with
    | Except.error err => Except.error err
    | Except.ok selector =>
      if selector obj.Labels then matchingRestics lister obj rest (result ++ [restic])
      else matchingRestics lister obj rest result

/-- The second loop of `FindRestic`, from index `i` on: it writes the names to the buffer `msg`,
with `, ` before every name but the first. -/
def writeNames : Nat → List Restic → String → String
  | _, [], msg => msg
  | i, restic :: rest, msg =>
    writeNames (i + 1) rest ((if i > 0 then msg ++ ", " else msg) ++ restic.ObjectMeta.Name)

/-- The function `FindRestic`: the error, or the policy found (`none` for nil). With exactly one
match `result.head?` is `result[0]`. -/
def FindRestic (lister : ResticLister) (obj : ObjectMeta) : Except Err (Option Restic) :=
  match lister.Restics obj.Namespace with
  | Except.error err => if IsNotFound err then Except.ok none else Except.error err
  | Except.ok restics =>
    match matchingRestics lister obj restics [] with
    | Except.error err => Except.error err
    | Except.ok result =>
      if result.length > 1 then
        Except.error
          { reason := "",
            message := writeNames 0 result
              ("Workload " ++ obj.Namespace ++ "/" ++ obj.Name ++ " matches multiple Restics:") }
      else if result.length = 1 then Except.ok result.head?
      else Except.ok none

/-- The zero value of `api.RecoverySpec`: empty strings, nil pointers, nil slices. -/
def zeroRecoverySpec : RecoverySpec :=
  { Backend := { StorageSecretName := "", Local := none, Remote := none },
    PathsSlice := none,
    Workload := { Kind := "", Name := "" },
    PodOrdinal := "",
    NodeName := "",
    RecoveredVolumesSlice := none,
    ImagePullSecretsSlice := none }

/-! ## Effects and collaborators -/

inductive EventType where
  | Normal
  | Warning
  deriving DecidableEq, Repr

/-- The event reasons of `pkg/eventer` the sources refer to, by the name of the constant. -/
inductive EventReason where
  | EventReasonFailedToRecover
  | EventReasonInvalidRecovery
  | EventReasonJobCreated
  | EventReasonSuccessfulRecovery
  deriving DecidableEq, Repr

/-- The object of a watch notification, an `interface{}` in the source: a Recovery, or anything
else, for which the type assertion `obj.(*api.Recovery)` fails. -/
inductive Obj where
  | recovery (r : Recovery)
  | other (kind : String)
  deriving DecidableEq, Repr

/-- One call that acts on the cluster or on the backend: job creation, RBAC provisioning, a
write of the status phase, a write of one per-path status entry, an event, one restore of the
data-transfer tool, and `queue.Enqueue` of a notified object on the work queue. Reads (get,
list, lookups in the informer cache) are not recorded. -/
inductive Effect where
  | createJob (ns : String) (job : Job)
  | ensureRecoveryRBAC (ref : ObjectReference)
  | setRecoveryStatusPhase (rec : Recovery) (phase : RecoveryPhase)
  | setRecoveryStats (rec : Recovery) (path : String) (d : Nat) (phase : RecoveryPhase)
  | event (ref : ObjectReference) (type : EventType) (reason : EventReason) (msg : String)
  | restore (path : String) (host : String)
  | enqueue (obj : Obj)
  deriving DecidableEq, Repr

/-- The phase a call writes, when it is a call of `SetRecoveryStatusPhase`. -/
def Effect.phaseWritten : Effect → Option RecoveryPhase
  | Effect.setRecoveryStatusPhase _ phase => some phase
  | _ => none

/-- The job a call creates, when it is a job-create call. -/
def Effect.jobCreated : Effect → Option Job
  | Effect.createJob _ job => some job
  | _ => none

/-- The object, reason and text of a call that emits an event of type `t`. -/
def Effect.eventOfType (t : EventType) : Effect → Option (ObjectReference × EventReason × String)
  | Effect.event ref type reason msg => if type = t then some (ref, reason, msg) else none
  | _ => none

/-- The path and host of a restore call. -/
def Effect.restored : Effect → Option (String × String)
  | Effect.restore path host => some (path, host)
  | _ => none

/-- The path and outcome of a call of `SetRecoveryStats`. -/
def Effect.statsWritten : Effect → Option (String × RecoveryPhase)
  | Effect.setRecoveryStats _ path _ phase => some (path, phase)
  | _ => none

/-- The phases written by `SetRecoveryStatusPhase`, in the order of the calls. -/
def phaseWrites (trace : List Effect) : List RecoveryPhase :=
  trace.filterMap Effect.phaseWritten

/-- The jobs handed to the job-create call, in the order of the calls. -/
def jobCreates (trace : List Effect) : List Job :=
  trace.filterMap Effect.jobCreated

/-- The events of a given type, as (object, reason, text), in the order of the calls. -/
def eventsOfType (t : EventType) (trace : List Effect) :
    List (ObjectReference × EventReason × String) :=
  trace.filterMap (Effect.eventOfType t)

/-- The restore calls, as (path, host), in the order of the calls. -/
def restoreCalls (trace : List Effect) : List (String × String) :=
  trace.filterMap Effect.restored

/-- The per-path status entries written by `SetRecoveryStats`, as (path, outcome), in the order
of the calls. -/
def statsWrites (trace : List Effect) : List (String × RecoveryPhase) :=
  trace.filterMap Effect.statsWritten

/-- The object a call of `queue.Enqueue` puts on the work queue. -/
def Effect.enqueued : Effect → Option Obj
  | Effect.enqueue obj => some obj
  | _ => none

/-- The objects put on the work queue, in the order of the calls. -/
def enqueues (trace : List Effect) : List Obj :=
  trace.filterMap Effect.enqueued

/-- Whether the call is a restore or the write of a per-path status entry. -/
def Effect.isPathStep : Effect → Bool
  | Effect.restore _ _ => true
  | Effect.setRecoveryStats _ _ _ _ => true
  | _ => false

/-! ## `pkg/controller` -/

structure Config where
  EnableRBAC : Bool
  StashImageTag : String
  DockerRegistry : String
  MaxNumRequeues : Int
  NumThreads : Int
  OpsAddress : String
  ResyncPeriod : Nat

/-- What the collaborators of the operator answer: the informer cache (`GetByKey`, with the
`exists` flag as an option), the job-create call of the cluster API, `reference.GetReference`
on the created job, and `ensureRecoveryRBAC`, which is defined elsewhere in the package.
`IsValid` is the validation method of a Recovery, which the API package defines. -/
structure Cluster where
  GetByKey : String → Except Err (Option Recovery)
  Create : String → Job → Except Err Job
  GetReference : Job → Except Err ObjectReference
  ensureRecoveryRBAC : ObjectReference → Option Err
  IsValid : Recovery → Option Err

structure StashController where
  options : Config
  cluster : Cluster
  globals : Globals

/-- The job `runRecoveryJob` hands to the create call: `NewRecoveryJob` for the operator's
image, with the service account named after the job when RBAC is enabled. -/
def recoveryJobOf (c : StashController) (rec : Recovery) : Job :=
  let image : Docker :=
    { Registry := c.options.DockerRegistry, Image := c.globals.ImageStash,
      Tag := c.options.StashImageTag }
  let job := NewRecoveryJob c.globals rec image
  if c.options.EnableRBAC then
    { job with Spec := { job.Spec with ServiceAccountName := job.ObjectMeta.Name } }
  else job

/-- The method `StashController.runRecoveryJob`: the returned error (`none` for nil) and the
calls it issued. -/
def runRecoveryJob (c : StashController) (rec : Recovery) : Option Err × List Effect :=
  if rec.Status.Phase = RecoverySucceeded ∨ rec.Status.Phase = RecoveryRunning then
    (none, [])
  else
    let job := recoveryJobOf c rec
    let created := [Effect.createJob rec.ObjectMeta.Namespace job]
    match c.cluster.Create rec.ObjectMeta.Namespace job with
    | Except.error err =>
      if IsAlreadyExists err then (none, created)
      else
        (some err, created ++
          [Effect.setRecoveryStatusPhase rec RecoveryFailed,
           Effect.event rec.ObjectReference EventType.Warning
             EventReason.EventReasonFailedToRecover err.message])
    | Except.ok job =>
      let done : List Effect :=
        [Effect.event rec.ObjectReference EventType.Normal EventReason.EventReasonJobCreated
           ("Recovery job created: " ++ job.ObjectMeta.Name),
         Effect.setRecoveryStatusPhase rec RecoveryRunning]
      if c.options.EnableRBAC then
        match c.cluster.GetReference job with
        | Except.error err => (some err, created)
        | Except.ok ref =>
          match c.cluster.ensureRecoveryRBAC ref with
          | some err =>
            (some { reason := "",
                    message := "error ensuring rbac for recovery job " ++ job.ObjectMeta.Name ++
                      ", reason: " ++ err.message ++ "\n" },
             created ++ [Effect.ensureRecoveryRBAC ref])
          | none => (none, created ++ [Effect.ensureRecoveryRBAC ref] ++ done)
      else (none, created ++ done)

/-- The method `StashController.runRecoveryInjector`. -/
def runRecoveryInjector (c : StashController) (key : String) : Option Err × List Effect :=
  match c.cluster.GetByKey key with
  | Except.error err => (some err, [])
  | Except.ok none => (none, [])
  | Except.ok (some d) => runRecoveryJob c d

/-- The warning event the add and update handlers emit for an object that fails validation. -/
def invalidRecoveryEvent (r : Recovery) (err : Err) : Effect :=
  Effect.event r.ObjectReference EventType.Warning EventReason.EventReasonInvalidRecovery
    ("Reason " ++ err.message)

/-- The handler `AddFunc` that `initRecoveryWatcher` registers: the calls it issues. -/
def initRecoveryWatcher.AddFunc (c : StashController) (obj : Obj) : List Effect :=
  match obj with
  | Obj.recovery r =>
    match c.cluster.IsValid r with
    | some err => [invalidRecoveryEvent r err]
    | none => [Effect.enqueue obj]
  | Obj.other _ => []

/-- The handler `UpdateFunc` that `initRecoveryWatcher` registers: the calls it issues. -/
def initRecoveryWatcher.UpdateFunc (c : StashController) (oldObj newObj : Obj) : List Effect :=
  match oldObj with
  | Obj.other _ => []
  | Obj.recovery oldRes =>
    match newObj with
    | Obj.other _ => []
    | Obj.recovery newRes =>
      match c.cluster.IsValid newRes with
      | some err => [invalidRecoveryEvent newRes err]
      | none =>
        if !RecoveryEqual (some oldRes) (some newRes) then [Effect.enqueue newObj] else []

/-- The handler `DeleteFunc` that `initRecoveryWatcher` registers: the calls it issues. -/
def initRecoveryWatcher.DeleteFunc (_c : StashController) (obj : Obj) : List Effect :=
  [Effect.enqueue obj]

/-! ## `pkg/recovery` -/

/-- What the collaborators of the recovery job answer: the Recovery and secret lookups, the
validation and host-name helpers of the API package, `reference.GetReference`, the environment
setup of the data-transfer tool, and its restore. A restore is identified by its position among
the restore calls of the run (`Restore i path host` is the result of call number `i`), and
`elapsed i` is the duration `measure` observes for it. -/
structure Answers where
  GetRecovery : String → String → Except Err Recovery
  IsValid : Recovery → Option Err
  GetSecret : String → String → Except Err Secret
  StatefulSetPodName : String → String → String × Option Err
  HostnamePrefix : LocalTypedReference → String → String → Except Err (String × String)
  SetupEnv : String → Backend → Secret → String → Option Err
  Restore : Nat → String → String → Option Err
  elapsed : Nat → Nat
  GetReference : Recovery → Except Err ObjectReference

structure Controller where
  answers : Answers
  namespace_ : String
  recoveryName : String

/-- The event `CreateEventWithLog` emits when `GetReference` gave a reference, none otherwise. -/
def eventIfRef (c : Controller) (recovery : Recovery) (type : EventType) (reason : EventReason)
    (msg : String) : List Effect :=
  match c.answers.GetReference recovery with
  | Except.ok ref => [Effect.event ref type reason msg]
  | Except.error _ => []

/-- The loop of `RecoverOrErr` over the remaining paths: `i` restores were issued so far,
`errRec` is the variable of that name and `trace` the calls issued so far. -/
def restorePaths (c : Controller) (recovery : Recovery) (hostname : String) :
    List String → Nat → Option Err → List Effect → Option Err × List Effect
  | [], _, errRec, trace => (errRec, trace)
  | path :: rest, i, errRec, trace =>
    let d := c.answers.elapsed i
    match c.answers.Restore i path hostname with
    | some err =>
      restorePaths c recovery hostname rest (i + 1) (some err)
        (trace ++ [Effect.restore path hostname] ++
          eventIfRef c recovery EventType.Warning EventReason.EventReasonFailedToRecover
            ("failed to recover FileGroup " ++ path ++ ", reason: " ++ err.message) ++
          [Effect.setRecoveryStats recovery path d RecoveryFailed])
    | none =>
      restorePaths c recovery hostname rest (i + 1) errRec
        (trace ++ [Effect.restore path hostname,
                   Effect.setRecoveryStats recovery path d RecoverySucceeded])

/-- The method `Controller.RecoverOrErr`: the returned error and the calls it issued. -/
def RecoverOrErr (c : Controller) (recovery : Recovery) : Option Err × List Effect :=
  match c.answers.GetSecret c.namespace_ recovery.Spec.Backend.StorageSecretName with
  | Except.error err => (some err, [])
  | Except.ok secret =>
    let nodeName := recovery.Spec.NodeName
    let podName :=
      (c.answers.StatefulSetPodName recovery.Spec.Workload.Name recovery.Spec.PodOrdinal).1
    match c.answers.HostnamePrefix recovery.Spec.Workload podName nodeName with
    | Except.error err => (some err, [])
    | Except.ok (hostname, smartPrefix) =>
      match c.answers.SetupEnv hostname recovery.Spec.Backend secret smartPrefix with
      | some err => (some err, [])
      | none => restorePaths c recovery hostname recovery.Spec.Paths 0 none []

/-- The method `Controller.Run`: the calls it issued. -/
def Run (c : Controller) : List Effect :=
  match c.answers.GetRecovery c.namespace_ c.recoveryName with
  | Except.error _ => []
  | Except.ok recovery =>
    match c.answers.IsValid recovery with
    | some err =>
      [Effect.setRecoveryStatusPhase recovery RecoveryFailed] ++
        eventIfRef c recovery EventType.Warning EventReason.EventReasonFailedToRecover
          ("Failed to validate recovery " ++ recovery.ObjectMeta.Name ++ ", reason: " ++
            err.message)
    | none =>
      match RecoverOrErr c recovery with
      | (some err, trace) =>
        trace ++ [Effect.setRecoveryStatusPhase recovery RecoveryFailed] ++
          eventIfRef c recovery EventType.Warning EventReason.EventReasonFailedToRecover
            ("Failed to complete recovery " ++ recovery.ObjectMeta.Name ++ ", reason: " ++
              err.message)
      | (none, trace) =>
        trace ++ [Effect.setRecoveryStatusPhase recovery RecoverySucceeded] ++
          eventIfRef c recovery EventType.Normal EventReason.EventReasonSuccessfulRecovery
            ("Recovery " ++ recovery.ObjectMeta.Name ++ " succeeded")

/-! ## Concrete objects used to evaluate the code -/

def noSource : VolumeSource :=
  { HostPath := none, EmptyDir := none, DownwardAPI := none, PersistentVolumeClaim := none }

def hostSource (p : String) : VolumeSource :=
  { HostPath := some p, EmptyDir := none, DownwardAPI := none, PersistentVolumeClaim := none }

def vol (name : String) (p : String) : Volume := { Name := name, VolumeSource := hostSource p }

def metaOf (name : String) : ObjectMeta :=
  { Name := name, Namespace := "default", UID := "uid-" ++ name, Labels := [],
    Annotations := none, OwnerReferences := [] }

def localAt (p : String) : LocalSpec :=
  { VolumeSource := hostSource p, MountPath := "/repo", SubPath := "" }

def remoteBackend : Backend := { StorageSecretName := "creds", Local := none, Remote := some "s3" }

def localBackend (p : String) : Backend :=
  { StorageSecretName := "creds", Local := some (localAt p), Remote := none }

def resticWith (b : Backend) : Restic :=
  { ObjectMeta := metaOf "nightly",
    Spec := { Selector := [], Backend := b, VolumeMounts := [], Resources := "",
              ImagePullSecrets := [] } }

def recoveryWith (paths : List String) (phase : RecoveryPhase) : Recovery :=
  { ObjectMeta := metaOf "restore-1",
    Spec := { Backend := remoteBackend, PathsSlice := some paths,
              Workload := { Kind := "Deployment", Name := "web" }, PodOrdinal := "",
              NodeName := "", RecoveredVolumesSlice := some [],
              ImagePullSecretsSlice := some [] },
    Status := { Phase := phase, Stats := [] } }

def globals0 : Globals :=
  { AnalyticsClientID := "", EnableAnalytics := true, LoggerFlags := [],
    AnalyticsKey := "APPSCODE_ANALYTICS_CLIENT_ID",
    SchemeGroupVersion := "stash.appscode.com/v1alpha1", ImageStash := "stash",
    ToContainerImage := fun d => d.Registry ++ "/" ++ d.Image ++ ":" ++ d.Tag,
    VersionTag := "restic.appscode.com/tag", Namespace := "kube-system" }

/-- The package state of an operator started without any logger option. -/
def globalsUnconfigured : Globals :=
  { AnalyticsClientID := "", EnableAnalytics := true, LoggerFlags := unconfiguredLoggerFlags,
    AnalyticsKey := "APPSCODE_ANALYTICS_CLIENT_ID",
    SchemeGroupVersion := "stash.appscode.com/v1alpha1", ImageStash := "stash",
    ToContainerImage := fun d => d.Registry ++ "/" ++ d.Image ++ ":" ++ d.Tag,
    VersionTag := "restic.appscode.com/tag", Namespace := "kube-system" }

def config0 (rbac : Bool) : Config :=
  { EnableRBAC := rbac, StashImageTag := "0.7.0", DockerRegistry := "appscode",
    MaxNumRequeues := 5, NumThreads := 2, OpsAddress := ":56790", ResyncPeriod := 300 }

def refOfJob (job : Job) : ObjectReference :=
  { Kind := "Job", Namespace := job.ObjectMeta.Namespace, Name := job.ObjectMeta.Name,
    UID := job.ObjectMeta.UID }

def existsErr : Err := { reason := "AlreadyExists", message := "jobs \"stash-recovery-restore-1\" already exists" }

def quotaErr : Err := { reason := "Forbidden", message := "exceeded quota" }

def rbacErr : Err := { reason := "Forbidden", message := "roles is forbidden" }

/-- A cluster in which the job-create call answers `create` and RBAC provisioning `rbac`. -/
def clusterWith (create : Job → Except Err Job) (rbac : Option Err) : Cluster :=
  { GetByKey := fun _ => Except.ok none,
    Create := fun _ job => create job,
    GetReference := fun job => Except.ok (refOfJob job),
    ensureRecoveryRBAC := fun _ => rbac,
    IsValid := fun r =>
      if r.Spec.Paths = [] then some { reason := "", message := "missing filegroup paths" }
      else none }

def operatorWith (rbacOn : Bool) (create : Job → Except Err Job) (rbac : Option Err) :
    StashController :=
  { options := config0 rbacOn, cluster := clusterWith create rbac, globals := globals0 }

/-- A recovery job run in which the environment setup succeeds, the Recovery `r` is found and
valid, and the restore of a path fails exactly when the path is listed in `failing`. -/
def runWith (r : Recovery) (failing : List String) : Controller :=
  { answers :=
      { GetRecovery := fun _ _ => Except.ok r,
        IsValid := fun _ => none,
        GetSecret := fun _ n => Except.ok { Name := n, Data := [] },
        StatefulSetPodName := fun _ _ => ("", some { reason := "", message := "no ordinal" }),
        HostnamePrefix := fun w _ _ => Except.ok (w.Name, ""),
        SetupEnv := fun _ _ _ _ => none,
        Restore := fun _ path _ =>
          if path ∈ failing then some { reason := "", message := "restore failed" } else none,
        elapsed := fun i => i + 1,
        GetReference := fun rec => Except.ok rec.ObjectReference },
    namespace_ := "default",
    recoveryName := r.ObjectMeta.Name }

def image0 : Docker := { Registry := "appscode", Image := "stash", Tag := "0.7.0" }

def web : LocalTypedReference := { Kind := "Deployment", Name := "web" }

/-- The policy `nightly` with a remote backend, carrying the version-tag annotation `tag`. -/
def resticTagged (tag : String) : Restic :=
  { ObjectMeta :=
      { Name := "nightly", Namespace := "default", UID := "uid-nightly", Labels := [],
        Annotations := some [("restic.appscode.com/tag", tag)], OwnerReferences := [] },
    Spec := { Selector := [], Backend := remoteBackend, VolumeMounts := [], Resources := "",
              ImagePullSecrets := [] } }

/-- The Recovery `restore-1` with the zero-value spec. -/
def zeroRecovery : Recovery :=
  { ObjectMeta := metaOf "restore-1", Spec := zeroRecoverySpec,
    Status := { Phase := "", Stats := [] } }

/-- The Recovery `restore-1` whose spec is the zero value but for `Paths`, an empty slice
that is not nil. -/
def emptyPathsRecovery : Recovery :=
  { ObjectMeta := metaOf "restore-1",
    Spec := { zeroRecoverySpec with PathsSlice := some [] },
    Status := { Phase := "", Stats := [] } }

/-- The policy `name` selecting the workloads labelled `app=<app>`. -/
def resticSelecting (name app : String) : Restic :=
  { ObjectMeta := metaOf name,
    Spec := { Selector := [("app", app)], Backend := remoteBackend, VolumeMounts := [],
              Resources := "", ImagePullSecrets := [] } }

/-- A lister holding `restics`, with selectors that match when every selected label is among
the labels of the workload. -/
def listerOf (restics : List Restic) : ResticLister :=
  { Restics := fun _ => Except.ok restics,
    LabelSelectorAsSelector := fun sel =>
      Except.ok (fun labels => sel.all (fun kv => labels.contains kv)) }

/-- The metadata of the workload `web`, labelled `app=web`. -/
def webMeta : ObjectMeta :=
  { Name := "web", Namespace := "default", UID := "uid-web", Labels := [("app", "web")],
    Annotations := none, OwnerReferences := [] }

/-! ## The recovery run: per-path restore and recording -/

/-- The two calls every path gives rise to, whatever the outcome: the restore and the write of
its status entry, flagged by the result of restore number `i`. -/
def pathSteps (c : Controller) (recovery : Recovery) (hostname : String) (ip : Nat × String) :
    List Effect :=
  [Effect.restore ip.2 hostname,
   Effect.setRecoveryStats recovery ip.2 (c.answers.elapsed ip.1)
     (if c.answers.Restore ip.1 ip.2 hostname = none then RecoverySucceeded else RecoveryFailed)]

theorem eventIfRef_no_pathStep (c : Controller) (recovery : Recovery) (t : EventType)
    (reason : EventReason) (msg : String) :
    (eventIfRef c recovery t reason msg).filter Effect.isPathStep = [] := by
  unfold eventIfRef
  cases c.answers.GetReference recovery <;> simp [Effect.isPathStep]

theorem eventIfRef_no_restore (c : Controller) (recovery : Recovery) (t : EventType)
    (reason : EventReason) (msg : String) :
    (eventIfRef c recovery t reason msg).filterMap Effect.restored = [] := by
  unfold eventIfRef
  cases c.answers.GetReference recovery <;> simp [Effect.restored]

theorem eventIfRef_no_stats (c : Controller) (recovery : Recovery) (t : EventType)
    (reason : EventReason) (msg : String) :
    (eventIfRef c recovery t reason msg).filterMap Effect.statsWritten = [] := by
  unfold eventIfRef
  cases c.answers.GetReference recovery <;> simp [Effect.statsWritten]

theorem eventIfRef_no_phase (c : Controller) (recovery : Recovery) (t : EventType)
    (reason : EventReason) (msg : String) :
    (eventIfRef c recovery t reason msg).filterMap Effect.phaseWritten = [] := by
  unfold eventIfRef
  cases c.answers.GetReference recovery <;> simp [Effect.phaseWritten]

theorem restorePaths_pathSteps (c : Controller) (recovery : Recovery) (hostname : String) :
    ∀ (paths : List String) (i : Nat) (errRec : Option Err) (trace : List Effect),
      (restorePaths c recovery hostname paths i errRec trace).2.filter Effect.isPathStep =
        trace.filter Effect.isPathStep ++
          (List.enumFrom i paths).flatMap (pathSteps c recovery hostname) := by
  intro paths
  induction paths with
  | nil => intro i errRec trace; simp [restorePaths]
  | cons path rest ih =>
    intro i errRec trace
    unfold restorePaths
    cases h : c.answers.Restore i path hostname with
    | none =>
      simp [ih, List.enumFrom_cons, pathSteps, h, Effect.isPathStep]
    | some err =>
      simp [ih, List.enumFrom_cons, pathSteps, h, Effect.isPathStep, eventIfRef_no_pathStep]

theorem restorePaths_restoreCalls (c : Controller) (recovery : Recovery) (hostname : String) :
    ∀ (paths : List String) (i : Nat) (errRec : Option Err) (trace : List Effect),
      restoreCalls (restorePaths c recovery hostname paths i errRec trace).2 =
        restoreCalls trace ++ paths.map (fun path => (path, hostname)) := by
  intro paths
  induction paths with
  | nil => intro i errRec trace; simp [restorePaths]
  | cons path rest ih =>
    intro i errRec trace
    unfold restorePaths
    cases h : c.answers.Restore i path hostname with
    | none => rw [ih]; simp [restoreCalls, Effect.restored]
    | some err => rw [ih]; simp [restoreCalls, Effect.restored, eventIfRef_no_restore]

theorem restorePaths_statsWrites (c : Controller) (recovery : Recovery) (hostname : String) :
    ∀ (paths : List String) (i : Nat) (errRec : Option Err) (trace : List Effect),
      statsWrites (restorePaths c recovery hostname paths i errRec trace).2 =
        statsWrites trace ++ (List.enumFrom i paths).map (fun ip =>
          (ip.2, if c.answers.Restore ip.1 ip.2 hostname = none then RecoverySucceeded
                 else RecoveryFailed)) := by
  intro paths
  induction paths with
  | nil => intro i errRec trace; simp [restorePaths]
  | cons path rest ih =>
    intro i errRec trace
    unfold restorePaths
    cases h : c.answers.Restore i path hostname with
    | none => rw [ih]; simp [statsWrites, Effect.statsWritten, List.enumFrom_cons, h]
    | some err =>
      rw [ih]
      simp [statsWrites, Effect.statsWritten, List.enumFrom_cons, h, eventIfRef_no_stats]

theorem restorePaths_phaseWrites (c : Controller) (recovery : Recovery) (hostname : String) :
    ∀ (paths : List String) (i : Nat) (errRec : Option Err) (trace : List Effect),
      phaseWrites (restorePaths c recovery hostname paths i errRec trace).2 =
        phaseWrites trace := by
  intro paths
  induction paths with
  | nil => intro i errRec trace; simp [restorePaths]
  | cons path rest ih =>
    intro i errRec trace
    unfold restorePaths
    cases h : c.answers.Restore i path hostname with
    | none => rw [ih]; simp [phaseWrites, Effect.phaseWritten]
    | some err => rw [ih]; simp [phaseWrites, Effect.phaseWritten, eventIfRef_no_phase]

theorem restorePaths_err (c : Controller) (recovery : Recovery) (hostname : String) :
    ∀ (paths : List String) (i : Nat) (errRec : Option Err) (trace : List Effect),
      ((restorePaths c recovery hostname paths i errRec trace).1.isSome = true ↔
        (errRec.isSome = true ∨
          ∃ ip ∈ List.enumFrom i paths, c.answers.Restore ip.1 ip.2 hostname ≠ none)) := by
  intro paths
  induction paths with
  | nil => intro i errRec trace; simp [restorePaths]
  | cons path rest ih =>
    intro i errRec trace
    unfold restorePaths
    cases h : c.answers.Restore i path hostname with
    | none =>
      simp only [ih, List.enumFrom_cons, List.mem_cons, exists_eq_or_imp, h]
      simp
    | some err =>
      simp only [ih, List.enumFrom_cons, List.mem_cons, exists_eq_or_imp, h]
      simp

/-- The run of `RecoverOrErr` once the environment is set up is the loop over the declared
paths, started with no error and no call. -/
theorem RecoverOrErr_of_setup (c : Controller) (recovery : Recovery) (secret : Secret)
    (hostname smartPrefix : String)
    (hsecret : c.answers.GetSecret c.namespace_ recovery.Spec.Backend.StorageSecretName =
      Except.ok secret)
    (hhost : c.answers.HostnamePrefix recovery.Spec.Workload
      (c.answers.StatefulSetPodName recovery.Spec.Workload.Name recovery.Spec.PodOrdinal).1
      recovery.Spec.NodeName = Except.ok (hostname, smartPrefix))
    (hsetup : c.answers.SetupEnv hostname recovery.Spec.Backend secret smartPrefix = none) :
    RecoverOrErr c recovery = restorePaths c recovery hostname recovery.Spec.Paths 0 none [] := by
  simp [RecoverOrErr, hsecret, hhost, hsetup]

/-- C1. Once the secret lookup, the host-name resolution and the environment setup succeeded,
and whatever each restore answers, `RecoverOrErr` calls the restore once per declared path in
declaration order, and writes exactly one status entry per path, in the same order: entry `i`
carries path `i` and is flagged Succeeded when restore number `i` returned no error and Failed
otherwise. The restore of a path comes right before the write of its entry and the next path
follows, so no failure stops the paths after it. -/
theorem RecoverOrErr_restores_and_records_every_path (c : Controller) (recovery : Recovery)
    (secret : Secret) (hostname smartPrefix : String)
    (hsecret : c.answers.GetSecret c.namespace_ recovery.Spec.Backend.StorageSecretName =
      Except.ok secret)
    (hhost : c.answers.HostnamePrefix recovery.Spec.Workload
      (c.answers.StatefulSetPodName recovery.Spec.Workload.Name recovery.Spec.PodOrdinal).1
      recovery.Spec.NodeName = Except.ok (hostname, smartPrefix))
    (hsetup : c.answers.SetupEnv hostname recovery.Spec.Backend secret smartPrefix = none) :
    restoreCalls (RecoverOrErr c recovery).2 =
        recovery.Spec.Paths.map (fun path => (path, hostname)) ∧
      statsWrites (RecoverOrErr c recovery).2 =
        recovery.Spec.Paths.enum.map (fun ip =>
          (ip.2, if c.answers.Restore ip.1 ip.2 hostname = none then RecoverySucceeded
                 else RecoveryFailed)) ∧
      (statsWrites (RecoverOrErr c recovery).2).length = recovery.Spec.Paths.length ∧
      (RecoverOrErr c recovery).2.filter Effect.isPathStep =
        recovery.Spec.Paths.enum.flatMap (fun ip =>
          [Effect.restore ip.2 hostname,
           Effect.setRecoveryStats recovery ip.2 (c.answers.elapsed ip.1)
             (if c.answers.Restore ip.1 ip.2 hostname = none then RecoverySucceeded
              else RecoveryFailed)]) := by
  rw [RecoverOrErr_of_setup c recovery secret hostname smartPrefix hsecret hhost hsetup]
  have h2 := restorePaths_statsWrites c recovery hostname recovery.Spec.Paths 0 none []
  refine ⟨?_, ?_, ?_, ?_⟩
  · simpa [restoreCalls] using
      restorePaths_restoreCalls c recovery hostname recovery.Spec.Paths 0 none []
  · simpa [statsWrites, List.enum] using h2
  · rw [h2]; simp [statsWrites]
  · have h4 := restorePaths_pathSteps c recovery hostname recovery.Spec.Paths 0 none []
    simpa [List.enum, pathSteps] using h4

/-- C1 at a run with paths `/data/a` (restore fails) and `/data/b` (restore succeeds). -/
theorem RecoverOrErr_restores_and_records_every_path_witness :
    statsWrites (RecoverOrErr (runWith (recoveryWith ["/data/a", "/data/b"] "Running")
        ["/data/a"]) (recoveryWith ["/data/a", "/data/b"] "Running")).2 =
      [("/data/a", RecoveryFailed), ("/data/b", RecoverySucceeded)] := by
  have h := (RecoverOrErr_restores_and_records_every_path
    (runWith (recoveryWith ["/data/a", "/data/b"] "Running") ["/data/a"])
    (recoveryWith ["/data/a", "/data/b"] "Running") { Name := "creds", Data := [] } "web" ""
    rfl rfl rfl).2.1
  rw [h]
  decide

/-- What `Run` writes as status phase, by the error `RecoverOrErr` returned, for a Recovery that
was found and is valid. -/
theorem Run_phaseWrites_of_valid (c : Controller) (recovery : Recovery)
    (hget : c.answers.GetRecovery c.namespace_ c.recoveryName = Except.ok recovery)
    (hvalid : c.answers.IsValid recovery = none) :
    phaseWrites (Run c) = phaseWrites (RecoverOrErr c recovery).2 ++
      [if (RecoverOrErr c recovery).1.isSome = true then RecoveryFailed
       else RecoverySucceeded] := by
  unfold Run
  rw [hget]
  simp only [hvalid]
  rcases hR : RecoverOrErr c recovery with ⟨e, trace⟩
  cases e with
  | none =>
    simp only [phaseWrites, List.filterMap_append, eventIfRef_no_phase]
    simp [Effect.phaseWritten]
  | some err =>
    simp only [phaseWrites, List.filterMap_append, eventIfRef_no_phase]
    simp [Effect.phaseWritten]

/-- C2. For a Recovery that is found and valid and whose environment setup succeeds,
`RecoverOrErr` returns an error exactly when the restore of some declared path failed, and `Run`
writes the status phase exactly once: Succeeded exactly when every declared path's restore
succeeded, Failed exactly when the restore of at least one declared path failed. -/
theorem Run_phase_succeeded_iff_all_paths_restored (c : Controller) (recovery : Recovery)
    (secret : Secret) (hostname smartPrefix : String)
    (hget : c.answers.GetRecovery c.namespace_ c.recoveryName = Except.ok recovery)
    (hvalid : c.answers.IsValid recovery = none)
    (hsecret : c.answers.GetSecret c.namespace_ recovery.Spec.Backend.StorageSecretName =
      Except.ok secret)
    (hhost : c.answers.HostnamePrefix recovery.Spec.Workload
      (c.answers.StatefulSetPodName recovery.Spec.Workload.Name recovery.Spec.PodOrdinal).1
      recovery.Spec.NodeName = Except.ok (hostname, smartPrefix))
    (hsetup : c.answers.SetupEnv hostname recovery.Spec.Backend secret smartPrefix = none) :
    ((RecoverOrErr c recovery).1.isSome = true ↔
        ∃ ip ∈ recovery.Spec.Paths.enum, c.answers.Restore ip.1 ip.2 hostname ≠ none) ∧
      (phaseWrites (Run c) = [RecoverySucceeded] ↔
        ∀ ip ∈ recovery.Spec.Paths.enum, c.answers.Restore ip.1 ip.2 hostname = none) ∧
      (phaseWrites (Run c) = [RecoveryFailed] ↔
        ∃ ip ∈ recovery.Spec.Paths.enum, c.answers.Restore ip.1 ip.2 hostname ≠ none) := by
  have herr : ((RecoverOrErr c recovery).1.isSome = true ↔
      ∃ ip ∈ recovery.Spec.Paths.enum, c.answers.Restore ip.1 ip.2 hostname ≠ none) := by
    rw [RecoverOrErr_of_setup c recovery secret hostname smartPrefix hsecret hhost hsetup]
    simpa [List.enum] using restorePaths_err c recovery hostname recovery.Spec.Paths 0 none []
  have hloop : phaseWrites (RecoverOrErr c recovery).2 = [] := by
    rw [RecoverOrErr_of_setup c recovery secret hostname smartPrefix hsecret hhost hsetup]
    simpa [phaseWrites] using
      restorePaths_phaseWrites c recovery hostname recovery.Spec.Paths 0 none []
  have hrun := Run_phaseWrites_of_valid c recovery hget hvalid
  rw [hloop] at hrun
  refine ⟨herr, ?_, ?_⟩
  · rw [hrun]
    by_cases hs : (RecoverOrErr c recovery).1.isSome = true
    · have hex := herr.mp hs
      simp only [hs, if_true, List.nil_append]
      constructor
      · intro h; exact absurd h (by decide)
      · intro hall
        obtain ⟨ip, hmem, hne⟩ := hex
        exact absurd (hall ip hmem) hne
    · have hnex := fun hex => hs (herr.mpr hex)
      simp only [hs, List.nil_append]
      constructor
      · intro _ ip hmem
        by_contra hne
        exact hnex ⟨ip, hmem, hne⟩
      · intro _; rfl
  · rw [hrun]
    by_cases hs : (RecoverOrErr c recovery).1.isSome = true
    · simp only [hs, if_true, List.nil_append]
      exact ⟨fun _ => herr.mp hs, fun _ => trivial⟩
    · simp only [hs, List.nil_append]
      constructor
      · intro h; exact absurd h (by decide)
      · intro hex; exact absurd (herr.mpr hex) hs

/-- C2 at the run of `restore-1` with paths `/data/a` (restore fails) and `/data/b` (restore
succeeds): the phase written is Failed. -/
theorem Run_phase_succeeded_iff_all_paths_restored_witness :
    phaseWrites (Run (runWith (recoveryWith ["/data/a", "/data/b"] "Running") ["/data/a"])) =
      [RecoveryFailed] :=
  (Run_phase_succeeded_iff_all_paths_restored
    (runWith (recoveryWith ["/data/a", "/data/b"] "Running") ["/data/a"])
    (recoveryWith ["/data/a", "/data/b"] "Running") { Name := "creds", Data := [] } "web" ""
    rfl rfl rfl rfl rfl).2.2.mpr ⟨(0, "/data/a"), by decide, by decide⟩

/-! ## The operator: launching the recovery job -/

/-- C3. For a Recovery whose phase is Running or Succeeded, whatever its spec and the options
of the controller, `runRecoveryJob` returns nil and issues no call at all: no job-create call,
no write of the status phase, no event. -/
theorem runRecoveryJob_running_or_succeeded_is_noop (c : StashController) (rec : Recovery)
    (hphase : rec.Status.Phase = RecoveryRunning ∨ rec.Status.Phase = RecoverySucceeded) :
    (runRecoveryJob c rec).1 = none ∧ (runRecoveryJob c rec).2 = [] ∧
      jobCreates (runRecoveryJob c rec).2 = [] ∧ phaseWrites (runRecoveryJob c rec).2 = [] ∧
      ∀ t, eventsOfType t (runRecoveryJob c rec).2 = [] := by
  have h : runRecoveryJob c rec = (none, []) := by
    unfold runRecoveryJob
    rw [if_pos hphase.symm]
  simp [h, jobCreates, phaseWrites, eventsOfType]

/-- C3 at a Running Recovery and an operator with RBAC enabled. -/
theorem runRecoveryJob_running_or_succeeded_is_noop_witness :
    (runRecoveryJob (operatorWith true (fun job => Except.ok job) none)
      (recoveryWith ["/data/a"] "Running")).2 = [] :=
  (runRecoveryJob_running_or_succeeded_is_noop (operatorWith true (fun job => Except.ok job) none)
    (recoveryWith ["/data/a"] "Running") (Or.inl rfl)).2.1

/-- The result of `runRecoveryJob` when the create call fails with an already-exists error. -/
theorem runRecoveryJob_eq_of_exists (c : StashController) (rec : Recovery) (err : Err)
    (hphase : ¬ (rec.Status.Phase = RecoverySucceeded ∨ rec.Status.Phase = RecoveryRunning))
    (hcreate : c.cluster.Create rec.ObjectMeta.Namespace (recoveryJobOf c rec) =
      Except.error err)
    (hexists : IsAlreadyExists err = true) :
    runRecoveryJob c rec =
      (none, [Effect.createJob rec.ObjectMeta.Namespace (recoveryJobOf c rec)]) := by
  unfold runRecoveryJob
  rw [if_neg hphase]
  simp [hcreate, hexists]

/-- The result of `runRecoveryJob` when the create call fails with another error. -/
theorem runRecoveryJob_eq_of_create_error (c : StashController) (rec : Recovery) (err : Err)
    (hphase : ¬ (rec.Status.Phase = RecoverySucceeded ∨ rec.Status.Phase = RecoveryRunning))
    (hcreate : c.cluster.Create rec.ObjectMeta.Namespace (recoveryJobOf c rec) =
      Except.error err)
    (hother : IsAlreadyExists err = false) :
    runRecoveryJob c rec =
      (some err, [Effect.createJob rec.ObjectMeta.Namespace (recoveryJobOf c rec),
        Effect.setRecoveryStatusPhase rec RecoveryFailed,
        Effect.event rec.ObjectReference EventType.Warning
          EventReason.EventReasonFailedToRecover err.message]) := by
  unfold runRecoveryJob
  rw [if_neg hphase]
  simp [hcreate, hother]

/-- The result of `runRecoveryJob` when the job is created and RBAC is disabled. -/
theorem runRecoveryJob_eq_of_created (c : StashController) (rec : Recovery) (job : Job)
    (hphase : ¬ (rec.Status.Phase = RecoverySucceeded ∨ rec.Status.Phase = RecoveryRunning))
    (hcreate : c.cluster.Create rec.ObjectMeta.Namespace (recoveryJobOf c rec) = Except.ok job)
    (hrbac : c.options.EnableRBAC = false) :
    runRecoveryJob c rec =
      (none, [Effect.createJob rec.ObjectMeta.Namespace (recoveryJobOf c rec),
        Effect.event rec.ObjectReference EventType.Normal EventReason.EventReasonJobCreated
          ("Recovery job created: " ++ job.ObjectMeta.Name),
        Effect.setRecoveryStatusPhase rec RecoveryRunning]) := by
  unfold runRecoveryJob
  rw [if_neg hphase]
  simp [hcreate, hrbac]

/-- The result of `runRecoveryJob` when the job is created, RBAC is enabled and the reference of
the job cannot be resolved. -/
theorem runRecoveryJob_eq_of_ref_error (c : StashController) (rec : Recovery) (job : Job)
    (err : Err)
    (hphase : ¬ (rec.Status.Phase = RecoverySucceeded ∨ rec.Status.Phase = RecoveryRunning))
    (hcreate : c.cluster.Create rec.ObjectMeta.Namespace (recoveryJobOf c rec) = Except.ok job)
    (hrbac : c.options.EnableRBAC = true)
    (href : c.cluster.GetReference job = Except.error err) :
    runRecoveryJob c rec =
      (some err, [Effect.createJob rec.ObjectMeta.Namespace (recoveryJobOf c rec)]) := by
  unfold runRecoveryJob
  rw [if_neg hphase]
  simp [hcreate, hrbac, href]

/-- The result of `runRecoveryJob` when the job is created, RBAC is enabled and provisioning the
RBAC resources fails. -/
theorem runRecoveryJob_eq_of_rbac_error (c : StashController) (rec : Recovery) (job : Job)
    (ref : ObjectReference) (err : Err)
    (hphase : ¬ (rec.Status.Phase = RecoverySucceeded ∨ rec.Status.Phase = RecoveryRunning))
    (hcreate : c.cluster.Create rec.ObjectMeta.Namespace (recoveryJobOf c rec) = Except.ok job)
    (hrbac : c.options.EnableRBAC = true)
    (href : c.cluster.GetReference job = Except.ok ref)
    (hensure : c.cluster.ensureRecoveryRBAC ref = some err) :
    runRecoveryJob c rec =
      (some { reason := "",
              message := "error ensuring rbac for recovery job " ++ job.ObjectMeta.Name ++
                ", reason: " ++ err.message ++ "\n" },
       [Effect.createJob rec.ObjectMeta.Namespace (recoveryJobOf c rec),
        Effect.ensureRecoveryRBAC ref]) := by
  unfold runRecoveryJob
  rw [if_neg hphase]
  simp [hcreate, hrbac, href, hensure]

/-- The result of `runRecoveryJob` when the job is created, RBAC is enabled and provisioning the
RBAC resources succeeds. -/
theorem runRecoveryJob_eq_of_rbac_ok (c : StashController) (rec : Recovery) (job : Job)
    (ref : ObjectReference)
    (hphase : ¬ (rec.Status.Phase = RecoverySucceeded ∨ rec.Status.Phase = RecoveryRunning))
    (hcreate : c.cluster.Create rec.ObjectMeta.Namespace (recoveryJobOf c rec) = Except.ok job)
    (hrbac : c.options.EnableRBAC = true)
    (href : c.cluster.GetReference job = Except.ok ref)
    (hensure : c.cluster.ensureRecoveryRBAC ref = none) :
    runRecoveryJob c rec =
      (none, [Effect.createJob rec.ObjectMeta.Namespace (recoveryJobOf c rec),
        Effect.ensureRecoveryRBAC ref,
        Effect.event rec.ObjectReference EventType.Normal EventReason.EventReasonJobCreated
          ("Recovery job created: " ++ job.ObjectMeta.Name),
        Effect.setRecoveryStatusPhase rec RecoveryRunning]) := by
  unfold runRecoveryJob
  rw [if_neg hphase]
  simp [hcreate, hrbac, href, hensure]

/-- The job-create call is issued, once, whenever the phase is neither Succeeded nor Running. -/
theorem runRecoveryJob_creates_when_not_guarded (c : StashController) (rec : Recovery)
    (hphase : ¬ (rec.Status.Phase = RecoverySucceeded ∨ rec.Status.Phase = RecoveryRunning)) :
    jobCreates (runRecoveryJob c rec).2 = [recoveryJobOf c rec] := by
  cases hc : c.cluster.Create rec.ObjectMeta.Namespace (recoveryJobOf c rec) with
  | error err =>
    cases he : IsAlreadyExists err with
    | true =>
      rw [runRecoveryJob_eq_of_exists c rec err hphase hc he]
      simp [jobCreates, Effect.jobCreated]
    | false =>
      rw [runRecoveryJob_eq_of_create_error c rec err hphase hc he]
      simp [jobCreates, Effect.jobCreated]
  | ok job =>
    cases hr : c.options.EnableRBAC with
    | false =>
      rw [runRecoveryJob_eq_of_created c rec job hphase hc hr]
      simp [jobCreates, Effect.jobCreated]
    | true =>
      cases hg : c.cluster.GetReference job with
      | error err =>
        rw [runRecoveryJob_eq_of_ref_error c rec job err hphase hc hr hg]
        simp [jobCreates, Effect.jobCreated]
      | ok ref =>
        cases hb : c.cluster.ensureRecoveryRBAC ref with
        | some err =>
          rw [runRecoveryJob_eq_of_rbac_error c rec job ref err hphase hc hr hg hb]
          simp [jobCreates, Effect.jobCreated]
        | none =>
          rw [runRecoveryJob_eq_of_rbac_ok c rec job ref hphase hc hr hg hb]
          simp [jobCreates, Effect.jobCreated]

/-- C4, as the claim states it, fails: a Recovery in phase Failed is launched again, here with
a job-create call and a write of phase Running. -/
theorem failed_phase_is_not_terminal :
    ¬ ∀ (c : StashController) (rec : Recovery),
        rec.Status.Phase = RecoverySucceeded ∨ rec.Status.Phase = RecoveryFailed →
          jobCreates (runRecoveryJob c rec).2 = [] ∧ phaseWrites (runRecoveryJob c rec).2 = [] := by
  intro h
  have h1 := (h (operatorWith false (fun job => Except.ok job) none)
    (recoveryWith ["/data/a"] "Failed") (Or.inr rfl)).2
  revert h1
  decide

/-- C4, amended. Succeeded is terminal at the reconciler: for a Recovery in phase Succeeded,
`runRecoveryJob`, and `runRecoveryInjector` on a key the cache resolves to it, issue no call: no
job-create call and no write of the phase. Failed is not guarded: for a Recovery in phase Failed
both issue one job-create call, for the job built from it. -/
theorem succeeded_is_terminal_and_failed_is_relaunched (c : StashController) (rec : Recovery)
    (key : String) (hkey : c.cluster.GetByKey key = Except.ok (some rec)) :
    (rec.Status.Phase = RecoverySucceeded →
        runRecoveryJob c rec = (none, []) ∧ runRecoveryInjector c key = (none, [])) ∧
      (rec.Status.Phase = RecoveryFailed →
        jobCreates (runRecoveryJob c rec).2 = [recoveryJobOf c rec] ∧
          jobCreates (runRecoveryInjector c key).2 = [recoveryJobOf c rec]) := by
  have hinj : runRecoveryInjector c key = runRecoveryJob c rec := by
    simp [runRecoveryInjector, hkey]
  rw [hinj]
  constructor
  · intro hs
    have h : runRecoveryJob c rec = (none, []) := by
      unfold runRecoveryJob
      rw [if_pos (Or.inl hs)]
    exact ⟨h, h⟩
  · intro hf
    have hphase : ¬ (rec.Status.Phase = RecoverySucceeded ∨ rec.Status.Phase = RecoveryRunning) := by
      rw [hf]; decide
    exact ⟨runRecoveryJob_creates_when_not_guarded c rec hphase,
      runRecoveryJob_creates_when_not_guarded c rec hphase⟩

/-- C4, amended, at an operator whose cache holds a Succeeded Recovery under its key. -/
theorem succeeded_is_terminal_and_failed_is_relaunched_witness :
    runRecoveryInjector
      { options := config0 false,
        cluster := { clusterWith (fun job => Except.ok job) none with
          GetByKey := fun _ => Except.ok (some (recoveryWith ["/data/a"] "Succeeded")) },
        globals := globals0 } "default/restore-1" = (none, []) :=
  ((succeeded_is_terminal_and_failed_is_relaunched
    { options := config0 false,
      cluster := { clusterWith (fun job => Except.ok job) none with
        GetByKey := fun _ => Except.ok (some (recoveryWith ["/data/a"] "Succeeded")) },
      globals := globals0 } (recoveryWith ["/data/a"] "Succeeded") "default/restore-1" rfl).1
    rfl).2

/-- C5. For a Recovery whose phase is neither Running nor Succeeded, when the job-create call
fails with an already-exists error, `runRecoveryJob` returns nil; the job-create call is its
only call, so it neither writes phase Failed (nor any phase) nor emits a warning event. -/
theorem runRecoveryJob_already_exists_is_success (c : StashController) (rec : Recovery)
    (err : Err)
    (hphase : ¬ (rec.Status.Phase = RecoveryRunning ∨ rec.Status.Phase = RecoverySucceeded))
    (hcreate : c.cluster.Create rec.ObjectMeta.Namespace (recoveryJobOf c rec) =
      Except.error err)
    (hexists : IsAlreadyExists err = true) :
    (runRecoveryJob c rec).1 = none ∧
      (runRecoveryJob c rec).2 = [Effect.createJob rec.ObjectMeta.Namespace (recoveryJobOf c rec)] ∧
      RecoveryFailed ∉ phaseWrites (runRecoveryJob c rec).2 ∧
      phaseWrites (runRecoveryJob c rec).2 = [] ∧
      eventsOfType EventType.Warning (runRecoveryJob c rec).2 = [] := by
  have hphase2 : ¬ (rec.Status.Phase = RecoverySucceeded ∨ rec.Status.Phase = RecoveryRunning) :=
    fun h => hphase h.symm
  have h : runRecoveryJob c rec =
      (none, [Effect.createJob rec.ObjectMeta.Namespace (recoveryJobOf c rec)]) :=
    by exact runRecoveryJob_eq_of_exists c rec err hphase2 hcreate hexists
  simp [h, phaseWrites, eventsOfType, Effect.phaseWritten, Effect.eventOfType]

/-- C5 at a Recovery with unset phase whose job already exists. -/
theorem runRecoveryJob_already_exists_is_success_witness :
    (runRecoveryJob (operatorWith false (fun _ => Except.error existsErr) none)
      (recoveryWith ["/data/a"] "")).1 = none :=
  (runRecoveryJob_already_exists_is_success
    (operatorWith false (fun _ => Except.error existsErr) none) (recoveryWith ["/data/a"] "")
    existsErr (by decide) rfl (by decide)).1

/-- C6, as the claim states it, fails: for a Recovery with unset phase whose job-create call
reports that the job already exists, `runRecoveryJob` writes no phase, so not Running. -/
theorem pending_already_exists_is_not_set_running :
    ¬ ∀ (c : StashController) (rec : Recovery), rec.Status.Phase = "" →
        ((∃ job, c.cluster.Create rec.ObjectMeta.Namespace (recoveryJobOf c rec) =
            Except.ok job) ∨
          (∃ err, c.cluster.Create rec.ObjectMeta.Namespace (recoveryJobOf c rec) =
            Except.error err ∧ IsAlreadyExists err = true)) →
        RecoveryRunning ∈ phaseWrites (runRecoveryJob c rec).2 := by
  intro h
  have h1 := h (operatorWith false (fun _ => Except.error existsErr) none)
    (recoveryWith ["/data/a"] "") rfl (Or.inr ⟨existsErr, rfl, by decide⟩)
  revert h1
  decide

/-- C6, amended. For a Recovery in the Pending (or unset) phase: when the job-create call
succeeds and RBAC is disabled, or enabled with the job's reference resolved and its RBAC
resources provisioned, `runRecoveryJob` returns nil and writes the phase once, to Running; when
the job-create call reports that the job already exists, it returns nil and writes no phase. -/
theorem pending_is_set_running_when_job_is_launched (c : StashController) (rec : Recovery)
    (hpending : rec.Status.Phase = "" ∨ rec.Status.Phase = RecoveryPending) :
    (∀ job, c.cluster.Create rec.ObjectMeta.Namespace (recoveryJobOf c rec) = Except.ok job →
        (c.options.EnableRBAC = false ∨
          ∃ ref, c.cluster.GetReference job = Except.ok ref ∧
            c.cluster.ensureRecoveryRBAC ref = none) →
        (runRecoveryJob c rec).1 = none ∧
          phaseWrites (runRecoveryJob c rec).2 = [RecoveryRunning]) ∧
      (∀ err, c.cluster.Create rec.ObjectMeta.Namespace (recoveryJobOf c rec) =
          Except.error err → IsAlreadyExists err = true →
        (runRecoveryJob c rec).1 = none ∧ phaseWrites (runRecoveryJob c rec).2 = []) := by
  have hphase : ¬ (rec.Status.Phase = RecoverySucceeded ∨ rec.Status.Phase = RecoveryRunning) := by
    rcases hpending with h | h <;> rw [h] <;> decide
  constructor
  · intro job hcreate hok
    cases hr : c.options.EnableRBAC with
    | false =>
      rw [runRecoveryJob_eq_of_created c rec job hphase hcreate hr]
      simp [phaseWrites, Effect.phaseWritten]
    | true =>
      rcases hok with hoff | ⟨ref, href, hensure⟩
      · rw [hr] at hoff; exact absurd hoff (by decide)
      · rw [runRecoveryJob_eq_of_rbac_ok c rec job ref hphase hcreate hr href hensure]
        simp [phaseWrites, Effect.phaseWritten]
  · intro err hcreate hexists
    rw [runRecoveryJob_eq_of_exists c rec err hphase hcreate hexists]
    simp [phaseWrites, Effect.phaseWritten]

/-- C6, amended, at a Recovery with unset phase whose job is created, RBAC being enabled and
provisioned. -/
theorem pending_is_set_running_when_job_is_launched_witness :
    phaseWrites (runRecoveryJob (operatorWith true (fun job => Except.ok job) none)
      (recoveryWith ["/data/a"] "")).2 = [RecoveryRunning] :=
  ((pending_is_set_running_when_job_is_launched
    (operatorWith true (fun job => Except.ok job) none) (recoveryWith ["/data/a"] "")
    (Or.inl rfl)).1 _ rfl (Or.inr ⟨_, rfl, rfl⟩)).2

/-- C7. For a Recovery whose phase is neither Running nor Succeeded, when the job-create call
fails with an error that is not already-exists, `runRecoveryJob` writes the phase once, to
Failed, emits one warning event, on the Recovery and carrying the text of the error, and returns
that very error. -/
theorem runRecoveryJob_create_error_marks_failed (c : StashController) (rec : Recovery)
    (err : Err)
    (hphase : ¬ (rec.Status.Phase = RecoveryRunning ∨ rec.Status.Phase = RecoverySucceeded))
    (hcreate : c.cluster.Create rec.ObjectMeta.Namespace (recoveryJobOf c rec) =
      Except.error err)
    (hother : IsAlreadyExists err = false) :
    (runRecoveryJob c rec).1 = some err ∧
      phaseWrites (runRecoveryJob c rec).2 = [RecoveryFailed] ∧
      eventsOfType EventType.Warning (runRecoveryJob c rec).2 =
        [(rec.ObjectReference, EventReason.EventReasonFailedToRecover, err.message)] := by
  rw [runRecoveryJob_eq_of_create_error c rec err (fun h => hphase h.symm) hcreate hother]
  simp [phaseWrites, eventsOfType, Effect.phaseWritten, Effect.eventOfType]

/-- C7 at a Recovery with unset phase whose job creation exceeds the quota. -/
theorem runRecoveryJob_create_error_marks_failed_witness :
    (runRecoveryJob (operatorWith false (fun _ => Except.error quotaErr) none)
      (recoveryWith ["/data/a"] "")).1 = some quotaErr :=
  (runRecoveryJob_create_error_marks_failed
    (operatorWith false (fun _ => Except.error quotaErr) none) (recoveryWith ["/data/a"] "")
    quotaErr (by decide) rfl (by decide)).1

/-- C8, the code at the failing input. RBAC is enabled, the job of a Recovery with unset phase
is created and provisioning its RBAC resources fails: `runRecoveryJob` returns an error and
does not write phase Running, but it does not write phase Failed either, it writes no phase.
On the retry the job exists, so `runRecoveryJob` returns nil and again writes no phase. -/
theorem rbac_failure_does_not_mark_failed :
    (runRecoveryJob (operatorWith true (fun job => Except.ok job) (some rbacErr))
        (recoveryWith ["/data/a"] "")).1.isSome = true ∧
      phaseWrites (runRecoveryJob (operatorWith true (fun job => Except.ok job) (some rbacErr))
        (recoveryWith ["/data/a"] "")).2 = [] ∧
      (runRecoveryJob (operatorWith true (fun _ => Except.error existsErr) (some rbacErr))
        (recoveryWith ["/data/a"] "")).1 = none ∧
      phaseWrites (runRecoveryJob (operatorWith true (fun _ => Except.error existsErr)
        (some rbacErr)) (recoveryWith ["/data/a"] "")).2 = [] := by
  decide

/-! ## Merging the volume of the Local backend -/

theorem firstNamed_eq_none_iff (name : String) (volumes : List Volume) :
    firstNamed name volumes = none ↔ ∀ v ∈ volumes, v.Name ≠ name := by
  induction volumes with
  | nil => simp [firstNamed]
  | cons a rest ih =>
    by_cases h : a.Name = name
    · simp [firstNamed, h]
    · simp [firstNamed, h, ih]

/-- The index found by the scan is in range, names a volume of that name, and no volume before
it has that name. -/
theorem firstNamed_eq_some (name : String) :
    ∀ (volumes : List Volume) (p : Nat), firstNamed name volumes = some p →
      p < volumes.length ∧ volumes[p]?.map Volume.Name = some name ∧
        ∀ j v, j < p → volumes[j]? = some v → v.Name ≠ name := by
  intro volumes
  induction volumes with
  | nil => intro p h; simp [firstNamed] at h
  | cons a rest ih =>
    intro p h
    by_cases ha : a.Name = name
    · simp [firstNamed, ha] at h
      subst h
      simp [ha]
    · simp only [firstNamed, ha, if_false, Option.map_eq_some'] at h
      obtain ⟨q, hq, rfl⟩ := h
      obtain ⟨h1, h2, h3⟩ := ih q hq
      refine ⟨by simp; omega, by simpa using h2, ?_⟩
      intro j v hj hv
      cases j with
      | zero =>
        simp at hv
        subst hv
        exact ha
      | succ k =>
        simp at hv
        exact h3 k v (by omega) hv

theorem UpsertVolume_of_absent (nv : Volume) (volumes : List Volume)
    (h : ∀ v ∈ volumes, v.Name ≠ nv.Name) : UpsertVolume volumes nv = volumes ++ [nv] := by
  induction volumes with
  | nil => simp [UpsertVolume]
  | cons a rest ih =>
    have ha : a.Name ≠ nv.Name := h a (by simp)
    have hr : ∀ v ∈ rest, v.Name ≠ nv.Name := fun v hv => h v (by simp [hv])
    simp [UpsertVolume, ha, ih hr]

/-- Overwriting the volume the scan found by one of the same name leaves the volumes of other
names as they are. -/
theorem filter_set_firstNamed (name : String) (nv : Volume) (hnv : nv.Name = name) :
    ∀ (volumes : List Volume) (p : Nat), firstNamed name volumes = some p →
      (volumes.set p nv).filter (fun v => decide (v.Name ≠ name)) =
        volumes.filter (fun v => decide (v.Name ≠ name)) := by
  intro volumes
  induction volumes with
  | nil => intro p h; simp [firstNamed] at h
  | cons a rest ih =>
    intro p h
    by_cases ha : a.Name = name
    · simp [firstNamed, ha] at h
      subst h
      simp [ha, hnv]
    · simp only [firstNamed, ha, if_false, Option.map_eq_some'] at h
      obtain ⟨q, hq, rfl⟩ := h
      simpa [ha] using ih q hq

/-- Dropping the index the scan found is erasing the first volume of that name. -/
theorem removeAt_firstNamed (name : String) (volumes : List Volume) :
    (match firstNamed name volumes with
      | some p => volumes.take p ++ volumes.drop (p + 1)
      | none => volumes) = volumes.eraseP (fun v => decide (v.Name = name)) := by
  induction volumes with
  | nil => simp [firstNamed]
  | cons a rest ih =>
    by_cases ha : a.Name = name
    · simp [firstNamed, ha]
    · cases hf : firstNamed name rest with
      | none =>
        rw [hf] at ih
        simp [firstNamed, ha, hf, ← ih]
      | some q =>
        rw [hf] at ih
        simp only [] at ih
        simp [firstNamed, ha, hf, ← ih]

theorem filter_eraseP_ne (name : String) (volumes : List Volume) :
    (volumes.eraseP (fun v => decide (v.Name = name))).filter (fun v => decide (v.Name ≠ name)) =
      volumes.filter (fun v => decide (v.Name ≠ name)) := by
  induction volumes with
  | nil => simp
  | cons a rest ih =>
    by_cases ha : a.Name = name
    · simp [ha]
    · simpa [List.eraseP_cons, ha] using ih

theorem eraseP_no_name_of_countP_le_one (name : String) (volumes : List Volume)
    (h : volumes.countP (fun v => decide (v.Name = name)) ≤ 1) :
    ∀ v ∈ volumes.eraseP (fun v => decide (v.Name = name)), v.Name ≠ name := by
  induction volumes with
  | nil => simp
  | cons a rest ih =>
    by_cases ha : a.Name = name
    · simp only [List.countP_cons, ha, decide_True, if_true] at h
      have h0 : rest.countP (fun v => decide (v.Name = name)) = 0 := by omega
      rw [List.countP_eq_zero] at h0
      intro v hv
      simp [ha] at hv
      simpa using h0 v hv
    · simp only [List.countP_cons, ha, decide_False] at h
      intro v hv
      simp [List.eraseP_cons, ha] at hv
      rcases hv with rfl | hv
      · exact ha
      · exact ih (by simpa using h) v hv

/-- The merge when the old policy has a Local backend and the new one has `ln`. -/
theorem MergeLocalVolume_local_local (volumes : List Volume) (old new : Restic)
    (lo ln : LocalSpec) (hold : old.Spec.Backend.Local = some lo)
    (hnew : new.Spec.Backend.Local = some ln) :
    MergeLocalVolume volumes (some old) new =
      match firstNamed LocalVolumeName volumes with
      | some p => volumes.set p (ln.ToVolumeAndMount LocalVolumeName).1
      | none => UpsertVolume volumes (ln.ToVolumeAndMount LocalVolumeName).1 := by
  simp [MergeLocalVolume, hold, hnew]

/-- The merge when the old policy has a Local backend and the new one has none. -/
theorem MergeLocalVolume_local_none (volumes : List Volume) (old new : Restic)
    (lo : LocalSpec) (hold : old.Spec.Backend.Local = some lo)
    (hnew : new.Spec.Backend.Local = none) :
    MergeLocalVolume volumes (some old) new =
      volumes.eraseP (fun v => decide (v.Name = LocalVolumeName)) := by
  rw [← removeAt_firstNamed]
  simp [MergeLocalVolume, hold, hnew]

/-- C9. When the old and the new policy both declare a Local backend: if some volume is named
`stash-local`, the merged list has the length of the given one, holds the volume derived from
the new backend at the index of the first volume named `stash-local`, and agrees with the given
list at every other index; if no volume is named `stash-local`, the merged list is the given one
with the derived volume appended. In both cases the volumes of other names are the same, in the
same order. -/
theorem MergeLocalVolume_replaces_in_place_or_appends (volumes : List Volume) (old new : Restic)
    (lo ln : LocalSpec) (hold : old.Spec.Backend.Local = some lo)
    (hnew : new.Spec.Backend.Local = some ln) :
    ((∃ v ∈ volumes, v.Name = LocalVolumeName) →
        (MergeLocalVolume volumes (some old) new).length = volumes.length ∧
          ∃ p, p < volumes.length ∧ volumes[p]?.map Volume.Name = some LocalVolumeName ∧
            (∀ j v, j < p → volumes[j]? = some v → v.Name ≠ LocalVolumeName) ∧
            (MergeLocalVolume volumes (some old) new)[p]? =
              some (ln.ToVolumeAndMount LocalVolumeName).1 ∧
            ∀ i, i ≠ p → (MergeLocalVolume volumes (some old) new)[i]? = volumes[i]?) ∧
      ((∀ v ∈ volumes, v.Name ≠ LocalVolumeName) →
        MergeLocalVolume volumes (some old) new =
          volumes ++ [(ln.ToVolumeAndMount LocalVolumeName).1]) ∧
      (MergeLocalVolume volumes (some old) new).filter
          (fun v => decide (v.Name ≠ LocalVolumeName)) =
        volumes.filter (fun v => decide (v.Name ≠ LocalVolumeName)) := by
  rw [MergeLocalVolume_local_local volumes old new lo ln hold hnew]
  have hname : (ln.ToVolumeAndMount LocalVolumeName).1.Name = LocalVolumeName := rfl
  cases hf : firstNamed LocalVolumeName volumes with
  | none =>
    have habsent := (firstNamed_eq_none_iff LocalVolumeName volumes).mp hf
    have happ := UpsertVolume_of_absent (ln.ToVolumeAndMount LocalVolumeName).1 volumes
      (by rw [hname]; exact habsent)
    refine ⟨?_, ?_, ?_⟩
    · rintro ⟨v, hv, hvn⟩
      exact absurd hvn (habsent v hv)
    · intro _; exact happ
    · simp only [happ, List.filter_append]
      simp [hname]
  | some p =>
    obtain ⟨h1, h2, h3⟩ := firstNamed_eq_some LocalVolumeName volumes p hf
    refine ⟨?_, ?_, ?_⟩
    · intro _
      refine ⟨by simp, p, h1, h2, h3, ?_, ?_⟩
      · simp [List.getElem?_set, h1]
      · intro i hi
        simp [List.getElem?_set, Ne.symm hi]
    · intro habsent
      rw [← firstNamed_eq_none_iff, hf] at habsent
      exact absurd habsent (by simp)
    · exact filter_set_firstNamed LocalVolumeName _ hname volumes p hf

/-- C9 at the volumes `data`, `stash-local`, `cache` and a new backend at `/new`: the length is
kept and the volumes of other names are `data`, `cache`. -/
theorem MergeLocalVolume_replaces_in_place_or_appends_witness :
    (MergeLocalVolume [vol "data" "/d", vol "stash-local" "/old", vol "cache" "/c"]
        (some (resticWith (localBackend "/old"))) (resticWith (localBackend "/new"))).length =
        [vol "data" "/d", vol "stash-local" "/old", vol "cache" "/c"].length ∧
      (MergeLocalVolume [vol "data" "/d", vol "stash-local" "/old", vol "cache" "/c"]
        (some (resticWith (localBackend "/old"))) (resticWith (localBackend "/new"))).filter
          (fun v => decide (v.Name ≠ LocalVolumeName)) =
        [vol "data" "/d", vol "stash-local" "/old", vol "cache" "/c"].filter
          (fun v => decide (v.Name ≠ LocalVolumeName)) :=
  ⟨((MergeLocalVolume_replaces_in_place_or_appends
      [vol "data" "/d", vol "stash-local" "/old", vol "cache" "/c"]
      (resticWith (localBackend "/old")) (resticWith (localBackend "/new"))
      (localAt "/old") (localAt "/new") rfl rfl).1
        ⟨vol "stash-local" "/old", by decide, rfl⟩).1,
   (MergeLocalVolume_replaces_in_place_or_appends
      [vol "data" "/d", vol "stash-local" "/old", vol "cache" "/c"]
      (resticWith (localBackend "/old")) (resticWith (localBackend "/new"))
      (localAt "/old") (localAt "/new") rfl rfl).2.2⟩

/-- C10, as the claim states it, fails: with two volumes named `stash-local` only the first
one is removed, so the result still holds a volume of that name. -/
theorem MergeLocalVolume_keeps_second_local :
    ¬ ∀ (volumes : List Volume) (old new : Restic) (lo : LocalSpec),
        old.Spec.Backend.Local = some lo → new.Spec.Backend.Local = none →
          (MergeLocalVolume volumes (some old) new).filter
              (fun v => decide (v.Name ≠ LocalVolumeName)) =
            volumes.filter (fun v => decide (v.Name ≠ LocalVolumeName)) ∧
          ∀ v ∈ MergeLocalVolume volumes (some old) new, v.Name ≠ LocalVolumeName := by
  intro h
  have h1 := (h [vol "stash-local" "/a", vol "stash-local" "/b"]
    (resticWith (localBackend "/a")) (resticWith remoteBackend) (localAt "/a") rfl rfl).2
    (vol "stash-local" "/b") (by decide)
  exact h1 rfl

/-- C10, amended. When the old policy declares a Local backend and the new one does not, the
merged list is the given one with the first volume named `stash-local` removed; the volumes of
other names are the same, in the same order; and the result holds no volume named `stash-local`
when the given list holds at most one. -/
theorem MergeLocalVolume_removes_first_local (volumes : List Volume) (old new : Restic)
    (lo : LocalSpec) (hold : old.Spec.Backend.Local = some lo)
    (hnew : new.Spec.Backend.Local = none) :
    MergeLocalVolume volumes (some old) new =
        volumes.eraseP (fun v => decide (v.Name = LocalVolumeName)) ∧
      (MergeLocalVolume volumes (some old) new).filter
          (fun v => decide (v.Name ≠ LocalVolumeName)) =
        volumes.filter (fun v => decide (v.Name ≠ LocalVolumeName)) ∧
      (volumes.countP (fun v => decide (v.Name = LocalVolumeName)) ≤ 1 →
        ∀ v ∈ MergeLocalVolume volumes (some old) new, v.Name ≠ LocalVolumeName) := by
  rw [MergeLocalVolume_local_none volumes old new lo hold hnew]
  exact ⟨rfl, filter_eraseP_ne LocalVolumeName volumes,
    eraseP_no_name_of_countP_le_one LocalVolumeName volumes⟩

/-- C10, amended, at the volumes `data`, `stash-local`, `cache`. -/
theorem MergeLocalVolume_removes_first_local_witness :
    MergeLocalVolume [vol "data" "/d", vol "stash-local" "/old", vol "cache" "/c"]
        (some (resticWith (localBackend "/old"))) (resticWith remoteBackend) =
      [vol "data" "/d", vol "cache" "/c"] := by
  rw [(MergeLocalVolume_removes_first_local
    [vol "data" "/d", vol "stash-local" "/old", vol "cache" "/c"]
    (resticWith (localBackend "/old")) (resticWith remoteBackend) (localAt "/old") rfl rfl).1]
  decide

/-! ## Volume mutations: deletion by name and idempotence -/

theorem eraseP_eq_filter_of_countP_le_one (name : String) (volumes : List Volume)
    (h : volumes.countP (fun v => decide (v.Name = name)) ≤ 1) :
    volumes.eraseP (fun v => decide (v.Name = name)) =
      volumes.filter (fun v => decide (v.Name ≠ name)) := by
  induction volumes with
  | nil => simp
  | cons a rest ih =>
    by_cases ha : a.Name = name
    · simp only [List.countP_cons, ha, decide_True, if_true] at h
      have h0 : rest.countP (fun v => decide (v.Name = name)) = 0 := by omega
      rw [List.countP_eq_zero] at h0
      have hall : ∀ v ∈ rest, v.Name ≠ name := fun v hv => by simpa using h0 v hv
      have hf : rest.filter (fun v => decide (v.Name ≠ name)) = rest :=
        List.filter_eq_self.mpr (fun v hv => by simpa using hall v hv)
      simp only [ne_eq, decide_not] at hf
      simp [ha, hf]
    · simp only [List.countP_cons, ha, decide_False] at h
      have ih2 := ih (by simpa using h)
      simp only [ne_eq, decide_not] at ih2
      simp [List.eraseP_cons, ha, ih2]

theorem EnsureVolumeDeleted_eq_eraseP (volumes : List Volume) (name : String) :
    EnsureVolumeDeleted volumes name = volumes.eraseP (fun v => decide (v.Name = name)) := by
  rw [← removeAt_firstNamed]
  rfl

/-- C11, as the claim states it, fails: of two volumes named `n` only the first is removed, so
the result still holds a volume named `n`. -/
theorem EnsureVolumeDeleted_keeps_second :
    ¬ ∀ (volumes : List Volume) (name : String),
        (∀ v ∈ EnsureVolumeDeleted volumes name, v.Name ≠ name) ∧
          EnsureVolumeDeleted volumes name =
            volumes.filter (fun v => decide (v.Name ≠ name)) := by
  intro h
  exact (h [vol "stash-local" "/a", vol "stash-local" "/b"] "stash-local").1
    (vol "stash-local" "/b") (by decide) rfl

/-- C11, amended. `EnsureVolumeDeleted` removes the first volume named `n` and nothing else: the
volumes of other names are the same, in the same order, and the list is returned unchanged when
no volume is named `n`. When the list holds at most one volume named `n`, the result holds none
and is exactly the list of the volumes whose name differs from `n`. -/
theorem EnsureVolumeDeleted_removes_first (volumes : List Volume) (name : String) :
    EnsureVolumeDeleted volumes name = volumes.eraseP (fun v => decide (v.Name = name)) ∧
      (EnsureVolumeDeleted volumes name).filter (fun v => decide (v.Name ≠ name)) =
        volumes.filter (fun v => decide (v.Name ≠ name)) ∧
      ((∀ v ∈ volumes, v.Name ≠ name) → EnsureVolumeDeleted volumes name = volumes) ∧
      (volumes.countP (fun v => decide (v.Name = name)) ≤ 1 →
        (∀ v ∈ EnsureVolumeDeleted volumes name, v.Name ≠ name) ∧
          EnsureVolumeDeleted volumes name =
            volumes.filter (fun v => decide (v.Name ≠ name))) := by
  rw [EnsureVolumeDeleted_eq_eraseP]
  refine ⟨rfl, filter_eraseP_ne name volumes, ?_, ?_⟩
  · intro h
    exact List.eraseP_of_forall_not (fun v hv => by simpa using h v hv)
  · intro h
    exact ⟨eraseP_no_name_of_countP_le_one name volumes h,
      eraseP_eq_filter_of_countP_le_one name volumes h⟩

/-- C11, amended, at the volumes `data`, `stash-local`, `cache`. -/
theorem EnsureVolumeDeleted_removes_first_witness :
    EnsureVolumeDeleted [vol "data" "/d", vol "stash-local" "/l", vol "cache" "/c"]
        "stash-local" =
      [vol "data" "/d", vol "stash-local" "/l", vol "cache" "/c"].filter
        (fun v => decide (v.Name ≠ "stash-local")) :=
  ((EnsureVolumeDeleted_removes_first
    [vol "data" "/d", vol "stash-local" "/l", vol "cache" "/c"] "stash-local").2.2.2
      (by decide)).2

theorem UpsertVolume_idem (nv : Volume) (volumes : List Volume) :
    UpsertVolume (UpsertVolume volumes nv) nv = UpsertVolume volumes nv := by
  induction volumes with
  | nil => simp [UpsertVolume]
  | cons a rest ih =>
    by_cases ha : a.Name = nv.Name
    · simp [UpsertVolume, ha]
    · simp [UpsertVolume, ha, ih]

/-- Overwriting the slot the scan found, or upserting when it found none, is upserting. -/
theorem set_firstNamed_eq_UpsertVolume (nv : Volume) (volumes : List Volume) :
    (match firstNamed nv.Name volumes with
      | some p => volumes.set p nv
      | none => UpsertVolume volumes nv) = UpsertVolume volumes nv := by
  induction volumes with
  | nil => simp [firstNamed]
  | cons a rest ih =>
    by_cases ha : a.Name = nv.Name
    · simp [firstNamed, UpsertVolume, ha]
    · cases hf : firstNamed nv.Name rest with
      | none => simp [firstNamed, ha, hf]
      | some q =>
        rw [hf] at ih
        simp only [] at ih
        simp [firstNamed, UpsertVolume, ha, hf, ih]

/-- Whatever the old policy, merging a new policy with Local backend `ln` upserts the volume
derived from it. -/
theorem MergeLocalVolume_eq_UpsertVolume (volumes : List Volume) (old : Option Restic)
    (new : Restic) (ln : LocalSpec) (hnew : new.Spec.Backend.Local = some ln) :
    MergeLocalVolume volumes old new =
      UpsertVolume volumes (ln.ToVolumeAndMount LocalVolumeName).1 := by
  have hset := set_firstNamed_eq_UpsertVolume (ln.ToVolumeAndMount LocalVolumeName).1 volumes
  have hname : (ln.ToVolumeAndMount LocalVolumeName).1.Name = LocalVolumeName := rfl
  rw [hname] at hset
  cases old with
  | none => simp [MergeLocalVolume, hnew]
  | some o =>
    cases ho : o.Spec.Backend.Local with
    | none => simp [MergeLocalVolume, hnew, ho]
    | some lo =>
      rw [MergeLocalVolume_local_local volumes o new lo ln ho hnew]
      exact hset

/-- C12. The volume mutations are idempotent: upserting the scratch volume twice is upserting
it once, likewise for the pod-info volume, and merging the Local volume again, with the policy
just applied as the old one, changes nothing. `old` may be nil. -/
theorem volume_mutations_idempotent (volumes : List Volume) (old : Option Restic)
    (new : Restic) :
    UpsertScratchVolume (UpsertScratchVolume volumes) = UpsertScratchVolume volumes ∧
      UpsertDownwardVolume (UpsertDownwardVolume volumes) = UpsertDownwardVolume volumes ∧
      MergeLocalVolume (MergeLocalVolume volumes old new) (some new) new =
        MergeLocalVolume volumes old new := by
  refine ⟨UpsertVolume_idem _ volumes, UpsertVolume_idem _ volumes, ?_⟩
  cases hn : new.Spec.Backend.Local with
  | none => simp [MergeLocalVolume, hn]
  | some ln =>
    rw [MergeLocalVolume_eq_UpsertVolume _ (some new) new ln hn,
      MergeLocalVolume_eq_UpsertVolume volumes old new ln hn]
    exact UpsertVolume_idem _ volumes

/-! ## The backup containers -/

/-- The loop of `NewSidecarContainer` over the declared mounts only appends to the mounts, one
read-only mount per declared mount, in order. -/
theorem foldl_declared_mounts (declared : List VolumeMount) :
    ∀ sidecar : Container,
      declared.foldl
          (fun sidecar srcVol =>
            { sidecar with
              VolumeMounts := sidecar.VolumeMounts ++
                [{ Name := srcVol.Name, MountPath := srcVol.MountPath,
                   SubPath := srcVol.SubPath, ReadOnly := true }] })
          sidecar =
        { sidecar with
          VolumeMounts := sidecar.VolumeMounts ++
            declared.map (fun srcVol =>
              { Name := srcVol.Name, MountPath := srcVol.MountPath, SubPath := srcVol.SubPath,
                ReadOnly := true }) } := by
  induction declared with
  | nil => intro sidecar; simp
  | cons m rest ih => intro sidecar; simp [ih]

/-- C13, as the claim states it, fails: with no logger option configured the logging library
still renders its two switches, and `NewSidecarContainer` appends them, so the argument list is
not the nine arguments alone. -/
theorem NewSidecarContainer_args_are_not_the_nine_alone :
    ¬ ∀ (g : Globals) (r : Restic) (workload : LocalTypedReference) (image : Docker),
        g.LoggerFlags = unconfiguredLoggerFlags →
          (NewSidecarContainer g r workload image).Args =
            ["backup",
             "--restic-name=" ++ r.ObjectMeta.Name,
             "--workload-kind=" ++ workload.Kind,
             "--workload-name=" ++ workload.Name,
             "--docker-registry=" ++ image.Registry,
             "--image-tag=" ++
               (r.ObjectMeta.Annotations.bind (fun m => m.lookup g.VersionTag)).getD image.Tag,
             "--run-via-cron=true",
             "--pushgateway-url=" ++ PushgatewayURL g,
             "--enable-analytics=" ++ fmtBool g.EnableAnalytics] := by
  intro h
  have h1 := h globalsUnconfigured (resticTagged "canary") web image0 rfl
  revert h1
  decide

/-- C13, amended. The sidecar container is named `stash`, runs the image with the tag `tag`,
which is the version-tag annotation of the policy when it carries one and the tag of the given
image otherwise, and its arguments are exactly the nine of the claim, in that order,
`--image-tag` naming `tag`, followed by the flags `LoggerOptions.ToFlags()` returns. -/
theorem NewSidecarContainer_name_image_args (g : Globals) (r : Restic)
    (workload : LocalTypedReference) (image : Docker) (tag : String)
    (htag : tag = (r.ObjectMeta.Annotations.bind (fun m => m.lookup g.VersionTag)).getD
      image.Tag) :
    (NewSidecarContainer g r workload image).Name = "stash" ∧
      (NewSidecarContainer g r workload image).Image =
        g.ToContainerImage { image with Tag := tag } ∧
      (NewSidecarContainer g r workload image).Args =
        ["backup",
         "--restic-name=" ++ r.ObjectMeta.Name,
         "--workload-kind=" ++ workload.Kind,
         "--workload-name=" ++ workload.Name,
         "--docker-registry=" ++ image.Registry,
         "--image-tag=" ++ tag,
         "--run-via-cron=true",
         "--pushgateway-url=" ++ PushgatewayURL g,
         "--enable-analytics=" ++ fmtBool g.EnableAnalytics] ++ g.LoggerFlags := by
  subst htag
  unfold NewSidecarContainer
  simp only [foldl_declared_mounts]
  cases hA : r.ObjectMeta.Annotations with
  | none => cases hL : r.Spec.Backend.Local <;> simp [StashContainer]
  | some m =>
    cases hv : m.lookup g.VersionTag with
    | none => cases hL : r.Spec.Backend.Local <;> simp [StashContainer, hv]
    | some v => cases hL : r.Spec.Backend.Local <;> simp [StashContainer, hv]

/-- C13, amended, at the policy `nightly` annotated with the tag `canary`, for the workload
`web`, with no logger option configured. -/
theorem NewSidecarContainer_name_image_args_witness :
    (NewSidecarContainer globalsUnconfigured (resticTagged "canary") web image0).Args =
      ["backup", "--restic-name=nightly", "--workload-kind=Deployment", "--workload-name=web",
       "--docker-registry=appscode", "--image-tag=canary", "--run-via-cron=true",
       "--pushgateway-url=http://stash-operator.kube-system.svc:56789",
       "--enable-analytics=true", "--logtostderr=false", "--alsologtostderr=false"] := by
  rw [(NewSidecarContainer_name_image_args globalsUnconfigured (resticTagged "canary") web
    image0 "canary" rfl).2.2]
  decide

/-- The arguments of the init container, for every input: the tag they name is the tag of the
image descriptor handed to `NewInitContainer`. -/
theorem NewInitContainer_args (g : Globals) (r : Restic) (workload : LocalTypedReference)
    (image : Docker) (enableRBAC : Bool) :
    (NewInitContainer g r workload image enableRBAC).Args =
      ["backup",
       "--restic-name=" ++ r.ObjectMeta.Name,
       "--workload-kind=" ++ workload.Kind,
       "--workload-name=" ++ workload.Name,
       "--docker-registry=" ++ image.Registry,
       "--image-tag=" ++ image.Tag,
       "--pushgateway-url=" ++ PushgatewayURL g,
       "--enable-analytics=" ++ fmtBool g.EnableAnalytics] ++ g.LoggerFlags ++
        (if enableRBAC then ["--enable-rbac=true"] else []) := by
  unfold NewInitContainer
  cases enableRBAC <;> simp

/-- The image of the init container is the image of the sidecar container. -/
theorem NewInitContainer_image (g : Globals) (r : Restic) (workload : LocalTypedReference)
    (image : Docker) (enableRBAC : Bool) :
    (NewInitContainer g r workload image enableRBAC).Image =
      (NewSidecarContainer g r workload image).Image := by
  unfold NewInitContainer
  cases enableRBAC <;> simp

/-- C14, the code at the failing input. For the policy `nightly` annotated with the version tag
`canary` and the operator image tagged `0.7.0`, the init container runs the image tagged
`canary` while its arguments name the tag `0.7.0`; the sidecar built from the same input names
`canary`, so the init arguments are not the sidecar arguments without `--run-via-cron=true`. -/
theorem NewInitContainer_names_stale_image_tag :
    (NewInitContainer globals0 (resticTagged "canary") web image0 false).Image =
        "appscode/stash:canary" ∧
      (NewInitContainer globals0 (resticTagged "canary") web image0 false).Args =
        ["backup", "--restic-name=nightly", "--workload-kind=Deployment",
         "--workload-name=web", "--docker-registry=appscode", "--image-tag=0.7.0",
         "--pushgateway-url=http://stash-operator.kube-system.svc:56789",
         "--enable-analytics=true"] ∧
      (NewSidecarContainer globals0 (resticTagged "canary") web image0).Args =
        ["backup", "--restic-name=nightly", "--workload-kind=Deployment",
         "--workload-name=web", "--docker-registry=appscode", "--image-tag=canary",
         "--run-via-cron=true",
         "--pushgateway-url=http://stash-operator.kube-system.svc:56789",
         "--enable-analytics=true"] ∧
      (NewInitContainer globals0 (resticTagged "canary") web image0 false).Args ≠
        (NewSidecarContainer globals0 (resticTagged "canary") web image0).Args.erase
          "--run-via-cron=true" := by
  decide

/-- C15. The volume mounts of the sidecar container are the scratch mount (`stash-scratchdir` at
`/tmp`), the pod-info mount (`stash-podinfo` at `/etc/stash`), then one read-only mount per
declared mount, in declaration order, with its name, mount path and sub-path, then the mount
derived from the Local backend, named `stash-local`, exactly when the backend is Local; so there
are `k + 2` mounts without a Local backend and `k + 3` with one. -/
theorem NewSidecarContainer_volumeMounts (g : Globals) (r : Restic)
    (workload : LocalTypedReference) (image : Docker) :
    (NewSidecarContainer g r workload image).VolumeMounts =
        [{ Name := "stash-scratchdir", MountPath := "/tmp", SubPath := "", ReadOnly := false },
         { Name := "stash-podinfo", MountPath := "/etc/stash", SubPath := "",
           ReadOnly := false }] ++
          r.Spec.VolumeMounts.map (fun m =>
            { Name := m.Name, MountPath := m.MountPath, SubPath := m.SubPath,
              ReadOnly := true }) ++
          (match r.Spec.Backend.Local with
            | some l => [(l.ToVolumeAndMount LocalVolumeName).2]
            | none => []) ∧
      (∀ l, r.Spec.Backend.Local = some l →
        ((l.ToVolumeAndMount LocalVolumeName).2).Name = "stash-local") ∧
      (NewSidecarContainer g r workload image).VolumeMounts.length =
        r.Spec.VolumeMounts.length + 2 + (if r.Spec.Backend.Local.isSome then 1 else 0) := by
  have hmounts : (NewSidecarContainer g r workload image).VolumeMounts =
      [{ Name := "stash-scratchdir", MountPath := "/tmp", SubPath := "", ReadOnly := false },
       { Name := "stash-podinfo", MountPath := "/etc/stash", SubPath := "",
         ReadOnly := false }] ++
        r.Spec.VolumeMounts.map (fun m =>
          { Name := m.Name, MountPath := m.MountPath, SubPath := m.SubPath,
            ReadOnly := true }) ++
        (match r.Spec.Backend.Local with
          | some l => [(l.ToVolumeAndMount LocalVolumeName).2]
          | none => []) := by
    unfold NewSidecarContainer
    simp only [foldl_declared_mounts]
    cases hL : r.Spec.Backend.Local <;>
      simp [sidecarBaseMounts, ScratchDirVolumeName, PodinfoVolumeName]
  refine ⟨hmounts, fun l _ => rfl, ?_⟩
  rw [hmounts]
  cases hL : r.Spec.Backend.Local <;> simp

/-! ## The recovery and check jobs -/

theorem prefix_append_cancel (p a b : String) (h : p ++ a = p ++ b) : a = b := by
  have hd := congrArg String.data h
  simp only [String.data_append] at hd
  exact String.ext (List.append_cancel_left hd)

theorem recoveredPairs_eq_enumFrom :
    ∀ (declared : List LocalSpec) (i : Nat),
      recoveredPairs i declared =
        (List.enumFrom i declared).map
          (fun iv => iv.2.ToVolumeAndMount ("vol-" ++ toString iv.1)) := by
  intro declared
  induction declared with
  | nil => intro i; simp [recoveredPairs]
  | cons l rest ih => intro i; simp [recoveredPairs, ih, List.enumFrom_cons]

/-- The volumes and the mounts of the job built by `NewRecoveryJob`. -/
theorem NewRecoveryJob_volumes_mounts (g : Globals) (recovery : Recovery) (image : Docker) :
    (NewRecoveryJob g recovery image).Spec.Volumes =
        recovery.Spec.RecoveredVolumes.enum.map
            (fun iv => (iv.2.ToVolumeAndMount ("vol-" ++ toString iv.1)).1) ++
          [{ Name := ScratchDirVolumeName,
             VolumeSource := { HostPath := none, EmptyDir := some (), DownwardAPI := none,
                               PersistentVolumeClaim := none } }] ++
          (match recovery.Spec.Backend.Local with
            | some l => [(l.ToVolumeAndMount LocalVolumeName).1]
            | none => []) ∧
      (NewRecoveryJob g recovery image).Spec.Containers.map Container.VolumeMounts =
        [recovery.Spec.RecoveredVolumes.enum.map
            (fun iv => (iv.2.ToVolumeAndMount ("vol-" ++ toString iv.1)).2) ++
          [{ Name := ScratchDirVolumeName, MountPath := "/tmp", SubPath := "",
             ReadOnly := false }] ++
          (match recovery.Spec.Backend.Local with
            | some l => [(l.ToVolumeAndMount LocalVolumeName).2]
            | none => [])] := by
  unfold NewRecoveryJob
  simp only [recoveredPairs_eq_enumFrom, List.map_map]
  cases hL : recovery.Spec.Backend.Local <;> simp [List.enum, Function.comp_def]

/-- The volumes and the mounts of the job built by `NewCheckJob`. -/
theorem NewCheckJob_volumes_mounts (g : Globals) (restic : Restic)
    (hostName smartPrefix : String) (image : Docker) :
    (NewCheckJob g restic hostName smartPrefix image).Spec.Volumes =
        [{ Name := ScratchDirVolumeName,
           VolumeSource := { HostPath := none, EmptyDir := some (), DownwardAPI := none,
                             PersistentVolumeClaim := none } }] ++
          (match restic.Spec.Backend.Local with
            | some l => [(l.ToVolumeAndMount LocalVolumeName).1]
            | none => []) ∧
      (NewCheckJob g restic hostName smartPrefix image).Spec.Containers.map
          Container.VolumeMounts =
        [[{ Name := ScratchDirVolumeName, MountPath := "/tmp", SubPath := "",
            ReadOnly := false }] ++
          (match restic.Spec.Backend.Local with
            | some l => [(l.ToVolumeAndMount LocalVolumeName).2]
            | none => [])] := by
  unfold NewCheckJob
  cases hL : restic.Spec.Backend.Local <;> simp

/-- The names `vol-0`, `vol-1`, ... of the recovered volumes and of their mounts. -/
theorem recovered_names (declared : List LocalSpec) :
    (declared.enum.map (fun iv => (iv.2.ToVolumeAndMount ("vol-" ++ toString iv.1)).1)).map
        Volume.Name = (List.range declared.length).map (fun i => "vol-" ++ toString i) ∧
      (declared.enum.map (fun iv => (iv.2.ToVolumeAndMount ("vol-" ++ toString iv.1)).2)).map
        VolumeMount.Name = (List.range declared.length).map (fun i => "vol-" ++ toString i) := by
  have h : (List.range declared.length).map (fun i => "vol-" ++ toString i) =
      declared.enum.map (fun iv => "vol-" ++ toString iv.1) := by
    rw [← List.enum_map_fst, List.map_map]
    rfl
  rw [h]
  constructor <;>
    simp [List.map_map, Function.comp_def, LocalSpec.ToVolumeAndMount]

/-- C16. The job built by `NewRecoveryJob` is named `stash-recovery-` followed by the name of
the Recovery, lives in its namespace, has one owner reference (kind Recovery, its name and UID)
and the labels app=stash, recovery=name, operation=recovery; the job built by `NewCheckJob` is
named `stash-check-` followed by the name of the policy, lives in its namespace, has one owner
reference (kind Restic, its name and UID) and the labels app=stash, restic=name,
operation=check. Two builds give the same job name exactly when the triggering objects have the
same name. -/
theorem job_identity_is_determined_by_name (g : Globals) (recovery : Recovery)
    (restic : Restic) (hostName smartPrefix : String) (image : Docker) :
    ((NewRecoveryJob g recovery image).ObjectMeta.Name =
          "stash-recovery-" ++ recovery.ObjectMeta.Name ∧
        (NewRecoveryJob g recovery image).ObjectMeta.Namespace =
          recovery.ObjectMeta.Namespace ∧
        (NewRecoveryJob g recovery image).ObjectMeta.OwnerReferences =
          [{ APIVersion := g.SchemeGroupVersion, Kind := "Recovery",
             Name := recovery.ObjectMeta.Name, UID := recovery.ObjectMeta.UID }] ∧
        (NewRecoveryJob g recovery image).ObjectMeta.Labels =
          [("app", "stash"), ("recovery", recovery.ObjectMeta.Name),
           ("operation", "recovery")]) ∧
      ((NewCheckJob g restic hostName smartPrefix image).ObjectMeta.Name =
          "stash-check-" ++ restic.ObjectMeta.Name ∧
        (NewCheckJob g restic hostName smartPrefix image).ObjectMeta.Namespace =
          restic.ObjectMeta.Namespace ∧
        (NewCheckJob g restic hostName smartPrefix image).ObjectMeta.OwnerReferences =
          [{ APIVersion := g.SchemeGroupVersion, Kind := "Restic",
             Name := restic.ObjectMeta.Name, UID := restic.ObjectMeta.UID }] ∧
        (NewCheckJob g restic hostName smartPrefix image).ObjectMeta.Labels =
          [("app", "stash"), ("restic", restic.ObjectMeta.Name), ("operation", "check")]) ∧
      (∀ (g2 : Globals) (recovery2 : Recovery) (image2 : Docker),
        (NewRecoveryJob g recovery image).ObjectMeta.Name =
            (NewRecoveryJob g2 recovery2 image2).ObjectMeta.Name ↔
          recovery.ObjectMeta.Name = recovery2.ObjectMeta.Name) ∧
      (∀ (g2 : Globals) (restic2 : Restic) (hostName2 smartPrefix2 : String) (image2 : Docker),
        (NewCheckJob g restic hostName smartPrefix image).ObjectMeta.Name =
            (NewCheckJob g2 restic2 hostName2 smartPrefix2 image2).ObjectMeta.Name ↔
          restic.ObjectMeta.Name = restic2.ObjectMeta.Name) := by
  have hrec : ∀ (g : Globals) (recovery : Recovery) (image : Docker),
      (NewRecoveryJob g recovery image).ObjectMeta =
        { Name := RecoveryJobPrefix ++ recovery.ObjectMeta.Name,
          Namespace := recovery.ObjectMeta.Namespace, UID := "",
          Labels := [("app", AppLabelStash), (AnnotationRecovery, recovery.ObjectMeta.Name),
                     (AnnotationOperation, OperationRecovery)],
          Annotations := none,
          OwnerReferences :=
            [{ APIVersion := g.SchemeGroupVersion, Kind := ResourceKindRecovery,
               Name := recovery.ObjectMeta.Name, UID := recovery.ObjectMeta.UID }] } := by
    intro g recovery image
    unfold NewRecoveryJob
    cases hL : recovery.Spec.Backend.Local <;> simp
  have hchk : ∀ (g : Globals) (restic : Restic) (hostName smartPrefix : String)
      (image : Docker),
      (NewCheckJob g restic hostName smartPrefix image).ObjectMeta =
        { Name := CheckJobPrefix ++ restic.ObjectMeta.Name,
          Namespace := restic.ObjectMeta.Namespace, UID := "",
          Labels := [("app", AppLabelStash), (AnnotationRestic, restic.ObjectMeta.Name),
                     (AnnotationOperation, OperationCheck)],
          Annotations := none,
          OwnerReferences :=
            [{ APIVersion := g.SchemeGroupVersion, Kind := ResourceKindRestic,
               Name := restic.ObjectMeta.Name, UID := restic.ObjectMeta.UID }] } := by
    intro g restic hostName smartPrefix image
    unfold NewCheckJob
    cases hL : restic.Spec.Backend.Local <;> simp
  refine ⟨?_, ?_, ?_, ?_⟩
  · rw [hrec]
    exact ⟨rfl, rfl, rfl, rfl⟩
  · rw [hchk]
    exact ⟨rfl, rfl, rfl, rfl⟩
  · intro g2 recovery2 image2
    rw [hrec, hrec]
    exact ⟨fun h => prefix_append_cancel _ _ _ h, fun h => by simp only [h]⟩
  · intro g2 restic2 hostName2 smartPrefix2 image2
    rw [hchk, hchk]
    exact ⟨fun h => prefix_append_cancel _ _ _ h, fun h => by simp only [h]⟩

/-- C17. The pod volumes of the recovery job are the recovered volumes, named `vol-0` to
`vol-(n-1)` and built from the declared ones in order, then the scratch empty-dir volume
`stash-scratchdir`, then the volume of the Local backend, `stash-local`, exactly when the
backend is Local; its single container mounts exactly these, the mounts paired with the volumes
in the same order and under the same names, the scratch volume at `/tmp`. For the check job the
volumes and mounts are the scratch pair, followed by the `stash-local` pair exactly when the
backend of the policy is Local. -/
theorem job_volumes_and_mounts (g : Globals) (recovery : Recovery) (restic : Restic)
    (hostName smartPrefix : String) (image : Docker) :
    ((NewRecoveryJob g recovery image).Spec.Volumes =
          recovery.Spec.RecoveredVolumes.enum.map
              (fun iv => (iv.2.ToVolumeAndMount ("vol-" ++ toString iv.1)).1) ++
            [{ Name := "stash-scratchdir",
               VolumeSource := { HostPath := none, EmptyDir := some (), DownwardAPI := none,
                                 PersistentVolumeClaim := none } }] ++
            (match recovery.Spec.Backend.Local with
              | some l => [(l.ToVolumeAndMount "stash-local").1]
              | none => []) ∧
        (NewRecoveryJob g recovery image).Spec.Volumes.map Volume.Name =
          (List.range recovery.Spec.RecoveredVolumes.length).map
              (fun i => "vol-" ++ toString i) ++
            ["stash-scratchdir"] ++
            (if recovery.Spec.Backend.Local.isSome then ["stash-local"] else []) ∧
        (NewRecoveryJob g recovery image).Spec.Containers.map Container.VolumeMounts =
          [recovery.Spec.RecoveredVolumes.enum.map
              (fun iv => (iv.2.ToVolumeAndMount ("vol-" ++ toString iv.1)).2) ++
            [{ Name := "stash-scratchdir", MountPath := "/tmp", SubPath := "",
               ReadOnly := false }] ++
            (match recovery.Spec.Backend.Local with
              | some l => [(l.ToVolumeAndMount "stash-local").2]
              | none => [])] ∧
        (NewRecoveryJob g recovery image).Spec.Containers.map
            (fun c => c.VolumeMounts.map VolumeMount.Name) =
          [(NewRecoveryJob g recovery image).Spec.Volumes.map Volume.Name]) ∧
      ((NewCheckJob g restic hostName smartPrefix image).Spec.Volumes =
          [{ Name := "stash-scratchdir",
             VolumeSource := { HostPath := none, EmptyDir := some (), DownwardAPI := none,
                               PersistentVolumeClaim := none } }] ++
            (match restic.Spec.Backend.Local with
              | some l => [(l.ToVolumeAndMount "stash-local").1]
              | none => []) ∧
        (NewCheckJob g restic hostName smartPrefix image).Spec.Containers.map
            Container.VolumeMounts =
          [[{ Name := "stash-scratchdir", MountPath := "/tmp", SubPath := "",
              ReadOnly := false }] ++
            (match restic.Spec.Backend.Local with
              | some l => [(l.ToVolumeAndMount "stash-local").2]
              | none => [])]) := by
  obtain ⟨hv, hm⟩ := NewRecoveryJob_volumes_mounts g recovery image
  obtain ⟨hn1, hn2⟩ := recovered_names recovery.Spec.RecoveredVolumes
  have hm2 : (NewRecoveryJob g recovery image).Spec.Containers.map
      (fun c => c.VolumeMounts.map VolumeMount.Name) =
      ((NewRecoveryJob g recovery image).Spec.Containers.map Container.VolumeMounts).map
        (fun ms => ms.map VolumeMount.Name) := by
    rw [List.map_map]; rfl
  refine ⟨⟨hv, ?_, hm, ?_⟩, NewCheckJob_volumes_mounts g restic hostName smartPrefix image⟩
  · rw [hv, List.map_append, List.map_append, hn1]
    cases hL : recovery.Spec.Backend.Local <;>
      simp [ScratchDirVolumeName, LocalVolumeName, LocalSpec.ToVolumeAndMount]
  · rw [hm2, hm, hv]
    simp only [List.map_cons, List.map_nil, List.map_append, hn1, hn2]
    cases hL : recovery.Spec.Backend.Local <;> simp [LocalSpec.ToVolumeAndMount]

/-- C18, as the claim states it, fails: with no logger option configured the logging library
still renders its two switches, and both builders append them, so the argument lists are not
the three and the five arguments alone. -/
theorem job_args_are_not_the_subcommand_flags_alone :
    ¬ ∀ (g : Globals) (recovery : Recovery) (restic : Restic) (hostName smartPrefix : String)
        (image : Docker), g.LoggerFlags = unconfiguredLoggerFlags →
          (NewRecoveryJob g recovery image).Spec.Containers.map Container.Args =
              [["recover", "--recovery-name=" ++ recovery.ObjectMeta.Name,
                "--enable-analytics=" ++ fmtBool g.EnableAnalytics]] ∧
            (NewCheckJob g restic hostName smartPrefix image).Spec.Containers.map
                Container.Args =
              [["check", "--restic-name=" ++ restic.ObjectMeta.Name,
                "--host-name=" ++ hostName, "--smart-prefix=" ++ smartPrefix,
                "--enable-analytics=" ++ fmtBool g.EnableAnalytics]] := by
  intro h
  have h1 := (h globalsUnconfigured (recoveryWith ["/data/a"] "")
    (resticWith (localBackend "/repo")) "web" "" image0 rfl).1
  revert h1
  decide

/-- C18, amended. The jobs built by `NewRecoveryJob` and `NewCheckJob` have restart policy
OnFailure and one container, named `stash`; the arguments of the recovery container are
`recover`, `--recovery-name=` with the name of the Recovery, `--enable-analytics=` with the
flag, and those of the check container are `check`, `--restic-name=` with the name of the
policy, `--host-name=`, `--smart-prefix=` and `--enable-analytics=` with their values, in that
order, each list followed by the flags `LoggerOptions.ToFlags()` returns. -/
theorem job_container_and_restart_policy (g : Globals) (recovery : Recovery) (restic : Restic)
    (hostName smartPrefix : String) (image : Docker) :
    ((NewRecoveryJob g recovery image).Spec.RestartPolicy = RestartPolicy.OnFailure ∧
        (NewRecoveryJob g recovery image).Spec.Containers.map Container.Name = ["stash"] ∧
        (NewRecoveryJob g recovery image).Spec.Containers.map Container.Args =
          [["recover", "--recovery-name=" ++ recovery.ObjectMeta.Name,
            "--enable-analytics=" ++ fmtBool g.EnableAnalytics] ++ g.LoggerFlags]) ∧
      ((NewCheckJob g restic hostName smartPrefix image).Spec.RestartPolicy =
          RestartPolicy.OnFailure ∧
        (NewCheckJob g restic hostName smartPrefix image).Spec.Containers.map Container.Name =
          ["stash"] ∧
        (NewCheckJob g restic hostName smartPrefix image).Spec.Containers.map Container.Args =
          [["check", "--restic-name=" ++ restic.ObjectMeta.Name, "--host-name=" ++ hostName,
            "--smart-prefix=" ++ smartPrefix,
            "--enable-analytics=" ++ fmtBool g.EnableAnalytics] ++ g.LoggerFlags]) := by
  constructor
  · unfold NewRecoveryJob
    cases hL : recovery.Spec.Backend.Local <;> simp [StashContainer]
  · unfold NewCheckJob
    cases hL : restic.Spec.Backend.Local <;> simp [StashContainer]

/-! ## The Recovery watcher and the reconciler -/

/-- C19. In the Recovery watcher: an add, or an update, whose (new) object fails validation puts
nothing on the queue and emits one event, a warning on that object with the reason; an add of a
valid object puts it on the queue; an update whose new object is valid puts it on the queue
exactly when `RecoveryEqual(old, new)` is false; a delete puts its object on the queue, valid
or not. -/
theorem recovery_watcher_admission (c : StashController) (old r : Recovery) :
    (∀ err, c.cluster.IsValid r = some err →
        initRecoveryWatcher.AddFunc c (Obj.recovery r) =
            [Effect.event r.ObjectReference EventType.Warning
              EventReason.EventReasonInvalidRecovery ("Reason " ++ err.message)] ∧
          enqueues (initRecoveryWatcher.AddFunc c (Obj.recovery r)) = [] ∧
          initRecoveryWatcher.UpdateFunc c (Obj.recovery old) (Obj.recovery r) =
            [Effect.event r.ObjectReference EventType.Warning
              EventReason.EventReasonInvalidRecovery ("Reason " ++ err.message)] ∧
          enqueues (initRecoveryWatcher.UpdateFunc c (Obj.recovery old) (Obj.recovery r)) =
            []) ∧
      (c.cluster.IsValid r = none →
        enqueues (initRecoveryWatcher.AddFunc c (Obj.recovery r)) = [Obj.recovery r] ∧
          (enqueues (initRecoveryWatcher.UpdateFunc c (Obj.recovery old) (Obj.recovery r)) =
              [Obj.recovery r] ↔ RecoveryEqual (some old) (some r) = false) ∧
          (enqueues (initRecoveryWatcher.UpdateFunc c (Obj.recovery old) (Obj.recovery r)) =
              [] ↔ RecoveryEqual (some old) (some r) = true)) ∧
      (∀ obj, enqueues (initRecoveryWatcher.DeleteFunc c obj) = [obj]) := by
  refine ⟨?_, ?_, ?_⟩
  · intro err herr
    simp [initRecoveryWatcher.AddFunc, initRecoveryWatcher.UpdateFunc, herr,
      invalidRecoveryEvent, enqueues, Effect.enqueued]
  · intro hvalid
    cases he : RecoveryEqual (some old) (some r) <;>
      simp [initRecoveryWatcher.AddFunc, initRecoveryWatcher.UpdateFunc, hvalid, he, enqueues,
        Effect.enqueued]
  · intro obj
    simp [initRecoveryWatcher.DeleteFunc, enqueues, Effect.enqueued]

/-- C19 at a Recovery without paths, which fails validation: its add puts nothing on the
queue, its delete puts it on the queue. -/
theorem recovery_watcher_admission_witness :
    enqueues (initRecoveryWatcher.AddFunc (operatorWith false (fun job => Except.ok job) none)
        (Obj.recovery (recoveryWith [] ""))) = [] ∧
      enqueues (initRecoveryWatcher.DeleteFunc
        (operatorWith false (fun job => Except.ok job) none)
        (Obj.recovery (recoveryWith [] ""))) = [Obj.recovery (recoveryWith [] "")] :=
  ⟨((recovery_watcher_admission (operatorWith false (fun job => Except.ok job) none)
      (recoveryWith [] "") (recoveryWith [] "")).1 _ rfl).2.1,
   (recovery_watcher_admission (operatorWith false (fun job => Except.ok job) none)
      (recoveryWith [] "") (recoveryWith [] "")).2.2 _⟩

/-- C20, as the claim states it, fails: for a cached Recovery without paths, which fails
validation, and with unset phase, `runRecoveryInjector` issues a job-create call. -/
theorem runRecoveryInjector_launches_invalid_recovery :
    ¬ ∀ (c : StashController) (key : String) (rec : Recovery),
        c.cluster.GetByKey key = Except.ok (some rec) → c.cluster.IsValid rec ≠ none →
          jobCreates (runRecoveryInjector c key).2 = [] := by
  intro h
  have h1 := h
    { options := config0 false,
      cluster := { clusterWith (fun job => Except.ok job) none with
        GetByKey := fun _ => Except.ok (some (recoveryWith [] "")) },
      globals := globals0 } "default/restore-1" (recoveryWith [] "") rfl (by decide)
  revert h1
  decide

/-- C20, amended. The reconciler does not validate at dequeue time: whatever the validation
method answers, `runRecoveryInjector` hands the cached Recovery to `runRecoveryJob`; a
job-create call is issued when the phase is neither Succeeded nor Running, also for a Recovery
that fails validation, and none is issued when the phase is Succeeded or Running. -/
theorem runRecoveryInjector_dispatches_without_validation (c : StashController) (key : String)
    (rec : Recovery) (hkey : c.cluster.GetByKey key = Except.ok (some rec)) :
    runRecoveryInjector c key = runRecoveryJob c rec ∧
      (∀ v : Recovery → Option Err,
        runRecoveryInjector { c with cluster := { c.cluster with IsValid := v } } key =
          runRecoveryInjector c key) ∧
      (¬ (rec.Status.Phase = RecoverySucceeded ∨ rec.Status.Phase = RecoveryRunning) →
        jobCreates (runRecoveryInjector c key).2 = [recoveryJobOf c rec]) ∧
      (rec.Status.Phase = RecoverySucceeded ∨ rec.Status.Phase = RecoveryRunning →
        jobCreates (runRecoveryInjector c key).2 = []) := by
  have hinj : runRecoveryInjector c key = runRecoveryJob c rec := by
    simp [runRecoveryInjector, hkey]
  refine ⟨hinj, fun v => rfl, ?_, ?_⟩
  · intro hphase
    rw [hinj]
    exact runRecoveryJob_creates_when_not_guarded c rec hphase
  · intro hphase
    rw [hinj]
    unfold runRecoveryJob
    rw [if_pos hphase]
    rfl

/-- C20, amended, at an operator whose cache holds a Recovery without paths and with unset
phase: the job is created. -/
theorem runRecoveryInjector_dispatches_without_validation_witness :
    (jobCreates (runRecoveryInjector
      { options := config0 false,
        cluster := { clusterWith (fun job => Except.ok job) none with
          GetByKey := fun _ => Except.ok (some (recoveryWith [] "")) },
        globals := globals0 } "default/restore-1").2).length = 1 := by
  rw [(runRecoveryInjector_dispatches_without_validation
    { options := config0 false,
      cluster := { clusterWith (fun job => Except.ok job) none with
        GetByKey := fun _ => Except.ok (some (recoveryWith [] "")) },
      globals := globals0 } "default/restore-1" (recoveryWith [] "") rfl).2.2.1 (by decide)]
  rfl

/-! ## The change suppressor -/

/-- Two Recoveries compare equal exactly when their specs are the same, nil-ness of the slices
included. -/
theorem RecoveryEqual_some_some (a b : Recovery) :
    RecoveryEqual (some a) (some b) = true ↔ a.Spec = b.Spec := by
  simp [RecoveryEqual]

/-- C21. For two Recoveries with equal specs, whatever their status and metadata,
`RecoveryEqual(old, new)` is true, so the update handler puts nothing on the queue for such an
update; `RecoveryEqual` is reflexive and does not depend on the order of its arguments, nil
included. -/
theorem RecoveryEqual_of_equal_specs (c : StashController) (old new : Recovery)
    (a b : Option Recovery) (hspec : old.Spec = new.Spec) :
    RecoveryEqual (some old) (some new) = true ∧
      enqueues (initRecoveryWatcher.UpdateFunc c (Obj.recovery old) (Obj.recovery new)) = [] ∧
      RecoveryEqual a a = true ∧
      RecoveryEqual a b = RecoveryEqual b a := by
  have heq : RecoveryEqual (some old) (some new) = true :=
    (RecoveryEqual_some_some old new).mpr hspec
  refine ⟨heq, ?_, by simp [RecoveryEqual], ?_⟩
  · cases hv : c.cluster.IsValid new <;>
      simp [initRecoveryWatcher.UpdateFunc, hv, heq, enqueues, Effect.enqueued,
        invalidRecoveryEvent]
  · simp only [RecoveryEqual]
    by_cases h : a.map (fun r => r.Spec) = b.map (fun r => r.Spec)
    · simp [h]
    · have h2 : ¬ b.map (fun r => r.Spec) = a.map (fun r => r.Spec) := fun h3 => h h3.symm
      simp [h, h2]

/-- C21 at an update that only moves the phase of `restore-1` from unset to Running. -/
theorem RecoveryEqual_of_equal_specs_witness :
    RecoveryEqual (some (recoveryWith ["/data/a"] "")) (some (recoveryWith ["/data/a"] "Running"))
        = true ∧
      enqueues (initRecoveryWatcher.UpdateFunc
        (operatorWith false (fun job => Except.ok job) none)
        (Obj.recovery (recoveryWith ["/data/a"] ""))
        (Obj.recovery (recoveryWith ["/data/a"] "Running"))) = [] :=
  ⟨(RecoveryEqual_of_equal_specs (operatorWith false (fun job => Except.ok job) none)
      (recoveryWith ["/data/a"] "") (recoveryWith ["/data/a"] "Running") none none rfl).1,
   (RecoveryEqual_of_equal_specs (operatorWith false (fun job => Except.ok job) none)
      (recoveryWith ["/data/a"] "") (recoveryWith ["/data/a"] "Running") none none rfl).2.1⟩

/-- C22, as the claim states it, fails: a nil Recovery and the Recovery with the zero-value
spec compare unequal, in both orders, and so do two Recoveries whose specs are the same but for
`Paths`, nil in one and empty in the other. -/
theorem RecoveryEqual_absent_is_not_empty :
    zeroRecovery.Spec = zeroRecoverySpec ∧
      RecoveryEqual none (some zeroRecovery) = false ∧
      RecoveryEqual (some zeroRecovery) none = false ∧
      (zeroRecovery.Spec.PathsSlice = none ∧ emptyPathsRecovery.Spec.PathsSlice = some [] ∧
        emptyPathsRecovery.Spec = { zeroRecovery.Spec with PathsSlice := some [] }) ∧
      RecoveryEqual (some zeroRecovery) (some emptyPathsRecovery) = false := by
  decide

/-- C22, amended. `RecoveryEqual` tells absent from empty: a nil Recovery compares unequal to
every Recovery, whatever its spec, in both orders, and equal to nil only; two Recoveries compare
equal exactly when their specs are the same, so they compare unequal as soon as one of the
slices `Paths`, `RecoveredVolumes`, `ImagePullSecrets` is nil in one and empty in the other. -/
theorem RecoveryEqual_distinguishes_absent_from_empty (r a b : Recovery) :
    RecoveryEqual none (some r) = false ∧
      RecoveryEqual (some r) none = false ∧
      RecoveryEqual none none = true ∧
      (RecoveryEqual (some a) (some b) = true ↔ a.Spec = b.Spec) ∧
      ((a.Spec.PathsSlice = none ∧ b.Spec.PathsSlice = some []) ∨
          (a.Spec.RecoveredVolumesSlice = none ∧ b.Spec.RecoveredVolumesSlice = some []) ∨
          (a.Spec.ImagePullSecretsSlice = none ∧ b.Spec.ImagePullSecretsSlice = some []) →
        RecoveryEqual (some a) (some b) = false ∧ RecoveryEqual (some b) (some a) = false) := by
  refine ⟨by simp [RecoveryEqual], by simp [RecoveryEqual], by simp [RecoveryEqual],
    RecoveryEqual_some_some a b, ?_⟩
  intro h
  have hne : a.Spec ≠ b.Spec := by
    intro heq
    rw [heq] at h
    rcases h with ⟨h1, h2⟩ | ⟨h1, h2⟩ | ⟨h1, h2⟩ <;> rw [h1] at h2 <;> exact absurd h2 (by simp)
  constructor
  · cases hE : RecoveryEqual (some a) (some b) with
    | false => rfl
    | true => exact absurd ((RecoveryEqual_some_some a b).mp hE) hne
  · cases hE : RecoveryEqual (some b) (some a) with
    | false => rfl
    | true => exact absurd ((RecoveryEqual_some_some b a).mp hE).symm hne

/-- C22, amended, at the zero-value Recovery and the one with an empty, non-nil `Paths`. -/
theorem RecoveryEqual_distinguishes_absent_from_empty_witness :
    RecoveryEqual (some zeroRecovery) (some emptyPathsRecovery) = false ∧
      RecoveryEqual (some emptyPathsRecovery) (some zeroRecovery) = false :=
  (RecoveryEqual_distinguishes_absent_from_empty zeroRecovery zeroRecovery
    emptyPathsRecovery).2.2.2.2 (Or.inl ⟨rfl, rfl⟩)

/-! ## Finding the policy of a workload -/

/-- With every selector convertible, the first loop of `FindRestic` collects the policies whose
selector matches, in list order. -/
theorem matchingRestics_eq_filter (lister : ResticLister) (obj : ObjectMeta)
    (sel : Restic → List (String × String) → Bool) :
    ∀ (restics result : List Restic),
      (∀ r ∈ restics, lister.LabelSelectorAsSelector r.Spec.Selector = Except.ok (sel r)) →
      matchingRestics lister obj restics result =
        Except.ok (result ++ restics.filter (fun r => sel r obj.Labels)) := by
  intro restics
  induction restics with
  | nil => intro result _; simp [matchingRestics]
  | cons r rest ih =>
    intro result hconv
    have hr := hconv r (by simp)
    have hrest : ∀ x ∈ rest, lister.LabelSelectorAsSelector x.Spec.Selector =
        Except.ok (sel x) := fun x hx => hconv x (by simp [hx])
    unfold matchingRestics
    rw [hr]
    by_cases hm : sel r obj.Labels = true
    · simp [hm, ih _ hrest]
    · simp [hm, ih _ hrest]

theorem intercalate_go_prepend (sep : String) :
    ∀ (names : List String) (h acc : String),
      String.intercalate.go (h ++ acc) sep names = h ++ String.intercalate.go acc sep names := by
  intro names
  induction names with
  | nil => intro h acc; simp [String.intercalate.go]
  | cons a rest ih =>
    intro h acc
    simp only [String.intercalate.go]
    rw [String.append_assoc, String.append_assoc, ih, String.append_assoc]

theorem writeNames_of_pos :
    ∀ (rest : List Restic) (i : Nat) (msg : String), 0 < i →
      writeNames i rest msg =
        String.intercalate.go msg ", " (rest.map (fun r => r.ObjectMeta.Name)) := by
  intro rest
  induction rest with
  | nil => intro i msg _; simp [writeNames, String.intercalate.go]
  | cons r rest ih =>
    intro i msg hi
    simp only [writeNames, hi, if_true, List.map_cons, String.intercalate.go]
    exact ih (i + 1) _ (by omega)

/-- The second loop of `FindRestic` appends to the buffer the names joined by `, `. -/
theorem writeNames_eq_intercalate (result : List Restic) (header : String) :
    writeNames 0 result header =
      header ++ ", ".intercalate (result.map (fun r => r.ObjectMeta.Name)) := by
  cases result with
  | nil => simp [writeNames, String.intercalate]
  | cons r rest =>
    simp only [writeNames, Nat.lt_irrefl, if_false, List.map_cons, String.intercalate]
    rw [writeNames_of_pos rest (0 + 1) _ (by omega), intercalate_go_prepend]

/-- C23. When the lister returns the policies of the namespace and every selector can be
converted, `FindRestic` returns an error exactly when two or more policies match the labels of
the workload, and the text of that error names every matching policy, in list order; it returns
the matching policy when exactly one matches and nil, without error, when none matches. A policy
it returns is the only one that matches. -/
theorem FindRestic_single_match_or_error (lister : ResticLister) (obj : ObjectMeta)
    (restics : List Restic) (sel : Restic → List (String × String) → Bool)
    (hlist : lister.Restics obj.Namespace = Except.ok restics)
    (hconv : ∀ r ∈ restics,
      lister.LabelSelectorAsSelector r.Spec.Selector = Except.ok (sel r)) :
    ((∃ err, FindRestic lister obj = Except.error err) ↔
        2 ≤ (restics.filter (fun r => sel r obj.Labels)).length) ∧
      (2 ≤ (restics.filter (fun r => sel r obj.Labels)).length →
        FindRestic lister obj = Except.error
          { reason := "",
            message := "Workload " ++ obj.Namespace ++ "/" ++ obj.Name ++
              " matches multiple Restics:" ++
              ", ".intercalate
                ((restics.filter (fun r => sel r obj.Labels)).map
                  (fun r => r.ObjectMeta.Name)) }) ∧
      (∀ r, restics.filter (fun r => sel r obj.Labels) = [r] →
        FindRestic lister obj = Except.ok (some r)) ∧
      (restics.filter (fun r => sel r obj.Labels) = [] →
        FindRestic lister obj = Except.ok none) ∧
      (∀ r, FindRestic lister obj = Except.ok (some r) →
        restics.filter (fun r => sel r obj.Labels) = [r]) := by
  have hloop := matchingRestics_eq_filter lister obj sel restics [] hconv
  rw [List.nil_append] at hloop
  have hfind : FindRestic lister obj =
      if (restics.filter (fun r => sel r obj.Labels)).length > 1 then
        Except.error
          { reason := "",
            message := writeNames 0 (restics.filter (fun r => sel r obj.Labels))
              ("Workload " ++ obj.Namespace ++ "/" ++ obj.Name ++ " matches multiple Restics:") }
      else if (restics.filter (fun r => sel r obj.Labels)).length = 1 then
        Except.ok (restics.filter (fun r => sel r obj.Labels)).head?
      else Except.ok none := by
    unfold FindRestic
    rw [hlist]
    simp only [hloop]
  rw [hfind, writeNames_eq_intercalate]
  generalize restics.filter (fun r => sel r obj.Labels) = found
  match found with
  | [] => simp
  | [r] => simp
  | r1 :: r2 :: rest => simp

/-- C23 at the workload `web` and the policies `nightly` and `hourly`, both selecting
`app=web`, listed with `other`, which selects `app=db`: the error names `nightly, hourly`. -/
theorem FindRestic_single_match_or_error_witness :
    FindRestic
        (listerOf [resticSelecting "nightly" "web", resticSelecting "other" "db",
          resticSelecting "hourly" "web"]) webMeta =
      Except.error
        { reason := "",
          message := "Workload default/web matches multiple Restics:nightly, hourly" } := by
  rw [(FindRestic_single_match_or_error
    (listerOf [resticSelecting "nightly" "web", resticSelecting "other" "db",
      resticSelecting "hourly" "web"]) webMeta
    [resticSelecting "nightly" "web", resticSelecting "other" "db",
      resticSelecting "hourly" "web"]
    (fun r labels => r.Spec.Selector.all (fun kv => labels.contains kv)) rfl
    (fun _ _ => rfl)).2.1 (by decide)]
  rfl

/-! ## Volume names of the job pods -/

theorem digitChar_value (k : Nat) (hk : k < 10) : (Nat.digitChar k).toNat - 48 = k := by
  interval_cases k <;> rfl

/-- Reading the decimal digits back gives the number they were written from. -/
theorem toDigitsCore_value :
    ∀ (fuel n : Nat) (ds : List Char), n < fuel →
      (Nat.toDigitsCore 10 fuel n ds).foldl (fun a c => 10 * a + (c.toNat - 48)) 0 =
        ds.foldl (fun a c => 10 * a + (c.toNat - 48)) n := by
  intro fuel
  induction fuel with
  | zero => intro n ds h; omega
  | succ fuel ih =>
    intro n ds h
    have hd := digitChar_value (n % 10) (Nat.mod_lt n (by decide))
    unfold Nat.toDigitsCore
    by_cases h0 : n / 10 = 0
    · have hn : n % 10 = n := Nat.mod_eq_of_lt (by omega)
      rw [hn] at hd
      simp only [h0, if_true, List.foldl_cons, hn, hd]
      simp
    · simp only [h0, if_false]
      rw [ih (n / 10) _ (by omega)]
      simp only [List.foldl_cons, hd]
      have hdm : 10 * (n / 10) + n % 10 = n := Nat.div_add_mod n 10
      rw [hdm]

/-- Rendering `%d` of two indices gives the same text only for the same index. -/
theorem toString_nat_injective (i j : Nat) (h : toString i = toString j) : i = j := by
  have h1 : (Nat.toDigits 10 i).asString = (Nat.toDigits 10 j).asString := h
  have h2 : Nat.toDigits 10 i = Nat.toDigits 10 j := by
    have hdata := congrArg String.data h1
    simpa [List.asString] using hdata
  have h3 := congrArg (List.foldl (fun a c => 10 * a + (c.toNat - 48)) 0) h2
  simp only [Nat.toDigits] at h3
  rw [toDigitsCore_value (i + 1) i [] (by omega),
    toDigitsCore_value (j + 1) j [] (by omega)] at h3
  simpa using h3

theorem vol_name_injective (i j : Nat) (h : "vol-" ++ toString i = "vol-" ++ toString j) :
    i = j :=
  toString_nat_injective i j (prefix_append_cancel _ _ _ h)

theorem vol_name_ne_stash (s t : String) : "vol-" ++ s ≠ "stash-" ++ t := by
  intro h
  have hdata := congrArg String.data h
  simp [String.data_append] at hdata

/-- The names of the volumes of the recovery job, and of the mounts of its containers. -/
theorem NewRecoveryJob_names (g : Globals) (recovery : Recovery) (image : Docker) :
    (NewRecoveryJob g recovery image).Spec.Volumes.map Volume.Name =
        (List.range recovery.Spec.RecoveredVolumes.length).map
            (fun i => "vol-" ++ toString i) ++
          ["stash-scratchdir"] ++
          (if recovery.Spec.Backend.Local.isSome then ["stash-local"] else []) ∧
      ∀ c ∈ (NewRecoveryJob g recovery image).Spec.Containers,
        c.VolumeMounts.map VolumeMount.Name =
          (NewRecoveryJob g recovery image).Spec.Volumes.map Volume.Name := by
  obtain ⟨hv, hm⟩ := NewRecoveryJob_volumes_mounts g recovery image
  obtain ⟨hn1, hn2⟩ := recovered_names recovery.Spec.RecoveredVolumes
  have hnames : (NewRecoveryJob g recovery image).Spec.Volumes.map Volume.Name =
      (List.range recovery.Spec.RecoveredVolumes.length).map
          (fun i => "vol-" ++ toString i) ++
        ["stash-scratchdir"] ++
        (if recovery.Spec.Backend.Local.isSome then ["stash-local"] else []) := by
    rw [hv, List.map_append, List.map_append, hn1]
    cases hL : recovery.Spec.Backend.Local <;>
      simp [ScratchDirVolumeName, LocalVolumeName, LocalSpec.ToVolumeAndMount]
  refine ⟨hnames, ?_⟩
  intro c hc
  have hcm : c.VolumeMounts ∈
      (NewRecoveryJob g recovery image).Spec.Containers.map Container.VolumeMounts :=
    List.mem_map_of_mem _ hc
  rw [hm, List.mem_singleton] at hcm
  rw [hcm, hnames, List.map_append, List.map_append, hn2]
  cases hL : recovery.Spec.Backend.Local <;>
    simp [ScratchDirVolumeName, LocalVolumeName, LocalSpec.ToVolumeAndMount]

/-- The names of the volumes of the check job, and of the mounts of its containers. -/
theorem NewCheckJob_names (g : Globals) (restic : Restic) (hostName smartPrefix : String)
    (image : Docker) :
    (NewCheckJob g restic hostName smartPrefix image).Spec.Volumes.map Volume.Name =
        ["stash-scratchdir"] ++
          (if restic.Spec.Backend.Local.isSome then ["stash-local"] else []) ∧
      ∀ c ∈ (NewCheckJob g restic hostName smartPrefix image).Spec.Containers,
        c.VolumeMounts.map VolumeMount.Name =
          (NewCheckJob g restic hostName smartPrefix image).Spec.Volumes.map Volume.Name := by
  obtain ⟨hv, hm⟩ := NewCheckJob_volumes_mounts g restic hostName smartPrefix image
  have hnames : (NewCheckJob g restic hostName smartPrefix image).Spec.Volumes.map
      Volume.Name =
      ["stash-scratchdir"] ++
        (if restic.Spec.Backend.Local.isSome then ["stash-local"] else []) := by
    rw [hv]
    cases hL : restic.Spec.Backend.Local <;>
      simp [ScratchDirVolumeName, LocalVolumeName, LocalSpec.ToVolumeAndMount]
  refine ⟨hnames, ?_⟩
  intro c hc
  have hcm : c.VolumeMounts ∈
      (NewCheckJob g restic hostName smartPrefix image).Spec.Containers.map
        Container.VolumeMounts := List.mem_map_of_mem _ hc
  rw [hm, List.mem_singleton] at hcm
  rw [hcm, hnames]
  cases hL : restic.Spec.Backend.Local <;>
    simp [ScratchDirVolumeName, LocalVolumeName, LocalSpec.ToVolumeAndMount]

/-- A mount whose name is among the names of the volumes names one of the volumes. -/
theorem mount_resolves (volumes : List Volume) (mounts : List VolumeMount)
    (h : mounts.map VolumeMount.Name = volumes.map Volume.Name) :
    ∀ m ∈ mounts, ∃ v ∈ volumes, v.Name = m.Name := by
  intro m hm
  have hmem : m.Name ∈ volumes.map Volume.Name := by
    rw [← h]
    exact List.mem_map_of_mem _ hm
  obtain ⟨v, hv, hvn⟩ := List.mem_map.mp hmem
  exact ⟨v, hv, hvn⟩

/-- C24. In the pod built by `NewRecoveryJob`, for any number of recovered volumes and with a
Local backend or without, the volume names are pairwise distinct, and every volume mount of a
container names a volume of the pod: `vol-i` and `vol-j` are different texts for different
indices and no `vol-i` is `stash-scratchdir` or `stash-local`. The same holds for the pod built
by `NewCheckJob`. -/
theorem job_volume_names_distinct_and_mounts_resolve (g : Globals) (recovery : Recovery)
    (restic : Restic) (hostName smartPrefix : String) (image : Docker) :
    (((NewRecoveryJob g recovery image).Spec.Volumes.map Volume.Name).Nodup ∧
        ∀ c ∈ (NewRecoveryJob g recovery image).Spec.Containers, ∀ m ∈ c.VolumeMounts,
          ∃ v ∈ (NewRecoveryJob g recovery image).Spec.Volumes, v.Name = m.Name) ∧
      ((∀ i j : Nat, "vol-" ++ toString i = "vol-" ++ toString j → i = j) ∧
        ∀ i : Nat, "vol-" ++ toString i ≠ "stash-scratchdir" ∧
          "vol-" ++ toString i ≠ "stash-local") ∧
      (((NewCheckJob g restic hostName smartPrefix image).Spec.Volumes.map Volume.Name).Nodup ∧
        ∀ c ∈ (NewCheckJob g restic hostName smartPrefix image).Spec.Containers,
          ∀ m ∈ c.VolumeMounts,
            ∃ v ∈ (NewCheckJob g restic hostName smartPrefix image).Spec.Volumes,
              v.Name = m.Name) := by
  obtain ⟨hrn, hrm⟩ := NewRecoveryJob_names g recovery image
  obtain ⟨hcn, hcm⟩ := NewCheckJob_names g restic hostName smartPrefix image
  have hscratch : ∀ i : Nat, "vol-" ++ toString i ≠ "stash-scratchdir" :=
    fun i => vol_name_ne_stash (toString i) "scratchdir"
  have hlocal : ∀ i : Nat, "vol-" ++ toString i ≠ "stash-local" :=
    fun i => vol_name_ne_stash (toString i) "local"
  have hvols : ((List.range recovery.Spec.RecoveredVolumes.length).map
      (fun i => "vol-" ++ toString i)).Nodup :=
    List.Nodup.map (fun i j h => vol_name_injective i j h) (List.nodup_range _)
  refine ⟨⟨?_, ?_⟩, ⟨vol_name_injective, fun i => ⟨hscratch i, hlocal i⟩⟩, ⟨?_, ?_⟩⟩
  · rw [hrn, List.append_assoc]
    refine List.Nodup.append hvols ?_ ?_
    · cases recovery.Spec.Backend.Local <;> simp
    · intro name h1 h2
      obtain ⟨i, _, rfl⟩ := List.mem_map.mp h1
      cases hL : recovery.Spec.Backend.Local with
      | none =>
        simp [hL] at h2
        exact hscratch i h2
      | some l =>
        simp [hL] at h2
        rcases h2 with h2 | h2
        · exact hscratch i h2
        · exact hlocal i h2
  · intro c hc
    exact mount_resolves _ _ (hrm c hc)
  · rw [hcn]
    cases restic.Spec.Backend.Local <;> simp
  · intro c hc
    exact mount_resolves _ _ (hcm c hc)

end Stash
